import Mathlib

/-!
# LinkVault: the link registry of `server.js`

A shallow embedding of the request handlers of `server.js` (lines 16-235, and
the preview page of lines 238-515) and theorems about them.

* The in-memory database `db` (lines 16-19) is a pair of JavaScript objects used
  as string-keyed maps.  Each is embedded as the list of its own properties in
  insertion order.  Reading `db.links[id]` also consults `Object.prototype`,
  because both maps are created by the object literal `{}`; `getProp` embeds
  that read.
* Every handler becomes a function from the database before the request to a
  `Step`: the database after it, the reply, and whether `saveDatabase()` was
  called, which writes the whole `db` to the file and does not change `db`.
* Values that arrive in a JSON request body are untyped; they are embedded as
  `JVal`.
* The counters `views`, `clicks` and `totalViews` are JavaScript numbers, that
  is doubles.  The handlers only ever store natural numbers in them; a counter
  is embedded as the natural number it holds and `increment` embeds `x++`,
  which is exact below 2^53 and rounds from there on.
* `String.prototype.toLowerCase`, `String.prototype.trim` and the clock belong to
  the JavaScript runtime; the handlers take them as parameters.
* A write that a handler makes through an inherited member lands on that
  member, not on `db`.  When the member is `Object.prototype` itself (the id or
  username `__proto__`), every object of the process inherits what was written,
  request bodies included.  `Prototype` holds what has been written there;
  `inheritLinkBody`, `inheritProfileBody` and `inheritCreateBody` give what a
  handler destructures from a request body in such a process, and
  `Prototype.applyLinkBody` and `Prototype.applyProfileBody` are the writes.
  The nine handlers are embedded as functions of the destructured body.  Their
  reads of `db.users[k]` and `db.links[id]` are embedded for a process whose
  `Object.prototype` is fresh; `preview` takes the prototype as an argument.
* The file `database.json` is embedded as the document that `JSON.parse` reads
  from it; `saveDatabase` and `startup` embed lines 21-33.
-/

namespace LinkVault

/-! ## Values -/

/-- A value destructured from a parsed JSON request body.  `undefined` is what
destructuring yields for a key the body does not carry.  `num n` is a finite
JSON number; the handlers only test whether it is zero.  `infinity` is what
`JSON.parse` reads from a number literal beyond the range of a double, such as
`1e999`: `Infinity`, or `-Infinity` when `negative`.  `composite` is an array or
an object; the handlers never look inside one.  It is carried as its text in
JSON syntax, in which a number that is not finite is written `Infinity` or
`-Infinity`. -/
inductive JVal where
  | undefined
  | null
  | bool (b : Bool)
  | num (n : Int)
  | infinity (negative : Bool)
  | str (s : String)
  | composite (json : String)
  deriving DecidableEq

/-- JavaScript truthiness, the test made by `if (v)` and negated by `!v`. -/
def JVal.truthy : JVal → Bool
  | .undefined => false
  | .null => false
  | .bool b => b
  | .num n => decide (n ≠ 0)
  | .infinity _ => true
  | .str s => decide (s ≠ "")
  | .composite _ => true

/-- The two `String.prototype` methods the handlers call. -/
structure Runtime where
  toLowerCase : String → String
  trim : String → String

/-- The two clock reads of a handler: `Date.now()` and `new Date().toISOString()`. -/
structure Clock where
  now : Nat
  iso : String

/-! ## Records and the database -/

/-- A user record, as built on lines 48-55.  The counter `totalViews` is a
double that holds a natural number. -/
structure User where
  username : String
  fullName : JVal
  bio : JVal
  avatar : JVal
  totalViews : Nat
  created : String
  deriving DecidableEq

/-- A link record, as built on lines 128-138.  The counters `views` and
`clicks` are doubles that hold natural numbers. -/
structure Link where
  id : String
  user : String
  title : JVal
  url : JVal
  description : JVal
  isPublic : JVal
  created : String
  views : Nat
  clicks : Nat
  deriving DecidableEq

/-- The statement `x++` on a counter that holds the natural number `n`.  The
counter is a double.  Below 2^53 the sum `n + 1` is a double and the counter
moves to it.  From 2^53 to 2^54 the doubles are the even numbers, `n + 1` lies
halfway between two of them and is rounded to the one whose significand is
even: the counter stays at `n` when `n / 2` is even (so it stays at 2^53) and
moves to `n + 2` when `n / 2` is odd.  From 2^54 on the doubles are at least 4
apart and the counter stays at `n`. -/
def increment (n : Nat) : Nat :=
  if n < 2 ^ 53 then n + 1
  else if n < 2 ^ 54 then (if (n / 2) % 2 = 0 then n else n + 2)
  else n

/-- The own properties of a JavaScript object used as a map, in insertion order. -/
abbrev Table (α : Type) := List (String × α)

/-- The object `db` of lines 16-19. -/
structure Db where
  users : Table User
  links : Table Link
  deriving DecidableEq

/-- The database of a first start, before any file exists. -/
def Db.empty : Db := ⟨[], []⟩

/-- The property names of a fresh `Object.prototype`.  A read `obj[k]` of an object that
has no own property `k` yields the inherited member for these names (a function,
or the prototype object itself for `__proto__`), which is truthy. -/
def objectPrototypeKeys : List String :=
  ["constructor", "__proto__", "toString", "toLocaleString", "valueOf",
   "hasOwnProperty", "isPrototypeOf", "propertyIsEnumerable",
   "__defineGetter__", "__defineSetter__", "__lookupGetter__", "__lookupSetter__"]

/-- The outcome of the read `obj[k]`. -/
inductive Slot (α : Type) where
  | record (r : α)
  | inherited
  | missing
  deriving DecidableEq

/-- The read `obj[k]` in a process whose `Object.prototype` is fresh: the own
property when there is one, otherwise the member inherited from
`Object.prototype`, otherwise `undefined`. -/
def getProp {α : Type} (t : Table α) (k : String) : Slot α :=
  match t.lookup k with
  | some r => .record r
  | none => if k ∈ objectPrototypeKeys then .inherited else .missing

/-- The write `obj[k] = v`: an existing own property keeps its place, a new one
is appended. -/
def setProp {α : Type} (t : Table α) (k : String) (v : α) : Table α :=
  match t.lookup k with
  | some _ => t.map fun p => if p.1 = k then (k, v) else p
  | none => t ++ [(k, v)]

/-- The statement `delete obj[k]`. -/
def delProp {α : Type} (t : Table α) (k : String) : Table α :=
  t.filter fun p => decide (p.1 ≠ k)

/-- The list `Object.values(obj)`. -/
def values {α : Type} (t : Table α) : List α :=
  t.map Prod.snd

/-! ## Replies -/

/-- What a handler answers.  `ok` is status 200 with a JSON body built from
records; `okInherited` is status 200 with a body built from a member of
`Object.prototype` instead of a record; `invalidInput` is status 400;
`notFound` is status 404; `typeError` is the exception raised by calling a
string method on a value that has none, which the framework answers with
status 500. -/
inductive Reply (α : Type) where
  | ok (body : α)
  | okInherited
  | invalidInput
  | notFound
  | typeError
  deriving DecidableEq

/-- The five user fields sent by the login and profile handlers (lines 62-68 and
85-91). -/
structure PublicUser where
  username : JVal
  fullName : JVal
  bio : JVal
  avatar : JVal
  totalViews : JVal
  deriving DecidableEq

/-- The public fields of a user record. -/
def User.publicFields (u : User) : PublicUser :=
  ⟨.str u.username, u.fullName, u.bio, u.avatar, .num u.totalViews⟩

/-- The public fields read off a member of `Object.prototype` in a process in
which no handler has written through an inherited member: every one is
`undefined`. -/
def PublicUser.ofInherited : PublicUser :=
  ⟨.undefined, .undefined, .undefined, .undefined, .undefined⟩

/-- The body of a profile reply (lines 84-94). -/
structure Profile where
  user : PublicUser
  links : List Link
  linkCount : Nat
  deriving DecidableEq

/-- The two rejections of the specification: `InvalidInput` and `NotFound`. -/
def Reply.rejected {α : Type} : Reply α → Bool
  | .invalidInput => true
  | .notFound => true
  | _ => false

/-! ## Request bodies -/

/-- The body of `PUT /api/users/:username` as destructured on line 99. -/
structure ProfileBody where
  fullName : JVal
  bio : JVal
  avatar : JVal
  deriving DecidableEq

/-- The body of `POST /api/links` as destructured on line 122. -/
structure CreateBody where
  username : JVal
  title : JVal
  url : JVal
  description : JVal
  isPublic : JVal
  deriving DecidableEq

/-- The body of `PUT /api/links/:id` as destructured on line 183. -/
structure LinkBody where
  title : JVal
  url : JVal
  description : JVal
  isPublic : JVal
  deriving DecidableEq

/-! ## Properties written onto `Object.prototype` -/

/-- What the handlers have written onto `Object.prototype`, under the seven
names by which they destructure request bodies; `undefined` stands for a
property that was never written (no handler writes `undefined`: lines 106-108
and 185-188 test the value first).  The counters that `link.views++`,
`link.clicks++` and `user.totalViews++` leave there are `NaN`, which is falsy
and which no handler destructures; they are not recorded. -/
structure Prototype where
  title : JVal
  url : JVal
  description : JVal
  isPublic : JVal
  fullName : JVal
  bio : JVal
  avatar : JVal
  deriving DecidableEq

/-- The prototype of a process in which no handler has written onto it. -/
def Prototype.fresh : Prototype :=
  ⟨.undefined, .undefined, .undefined, .undefined, .undefined, .undefined, .undefined⟩

/-- The value written onto `Object.prototype` under `name`; `undefined` when
there is none. -/
def Prototype.read (proto : Prototype) (name : String) : JVal :=
  if name = "title" then proto.title
  else if name = "url" then proto.url
  else if name = "description" then proto.description
  else if name = "isPublic" then proto.isPublic
  else if name = "fullName" then proto.fullName
  else if name = "bio" then proto.bio
  else if name = "avatar" then proto.avatar
  else .undefined

/-- The read `body.name` in a destructuring: the body's own member when it has
one, otherwise the property inherited from `Object.prototype`.  A member of a
parsed JSON body is never `undefined`. -/
def JVal.orInherited (own inherited : JVal) : JVal :=
  if own = .undefined then inherited else own

/-- What line 183 destructures from a request body with the own members `own`,
in a process whose `Object.prototype` carries `proto`. -/
def inheritLinkBody (proto : Prototype) (own : LinkBody) : LinkBody :=
  ⟨own.title.orInherited proto.title, own.url.orInherited proto.url,
    own.description.orInherited proto.description, own.isPublic.orInherited proto.isPublic⟩

/-- What line 99 destructures from a request body with the own members `own`,
in a process whose `Object.prototype` carries `proto`. -/
def inheritProfileBody (proto : Prototype) (own : ProfileBody) : ProfileBody :=
  ⟨own.fullName.orInherited proto.fullName, own.bio.orInherited proto.bio,
    own.avatar.orInherited proto.avatar⟩

/-- What line 122 destructures from a request body with the own members `own`,
in a process whose `Object.prototype` carries `proto`.  No handler writes a
property `username`. -/
def inheritCreateBody (proto : Prototype) (own : CreateBody) : CreateBody :=
  ⟨own.username, own.title.orInherited proto.title, own.url.orInherited proto.url,
    own.description.orInherited proto.description, own.isPublic.orInherited proto.isPublic⟩

/-- The four conditional assignments of lines 185-188 when `link` is
`Object.prototype` itself, which is what `db.links["__proto__"]` reads while
`db.links` has no own property of that name. -/
def Prototype.applyLinkBody (proto : Prototype) (body : LinkBody) : Prototype :=
  let proto1 := if body.title.truthy then { proto with title := body.title } else proto
  let proto2 := if body.url.truthy then { proto1 with url := body.url } else proto1
  let proto3 :=
    if body.description ≠ .undefined then { proto2 with description := body.description }
    else proto2
  let proto4 :=
    if body.isPublic ≠ .undefined then { proto3 with isPublic := body.isPublic } else proto3
  proto4

/-- The three conditional assignments of lines 106-108 when `user` is
`Object.prototype` itself, which is what `db.users["__proto__"]` reads while
`db.users` has no own property of that name. -/
def Prototype.applyProfileBody (proto : Prototype) (body : ProfileBody) : Prototype :=
  let proto1 := if body.fullName.truthy then { proto with fullName := body.fullName } else proto
  let proto2 := if body.bio ≠ .undefined then { proto1 with bio := body.bio } else proto1
  let proto3 := if body.avatar.truthy then { proto2 with avatar := body.avatar } else proto2
  proto3

/-! ## Handlers -/

/-- The record literal of lines 48-55: the user created for the request's
`username`, stored under `sanitizedUsername`. -/
def freshUser (sanitizedUsername username : String) (clock : Clock) : User :=
  { username := sanitizedUsername, fullName := .str username, bio := .str "",
    avatar := .str "👤", totalViews := 0, created := clock.iso }

/-- What one request does: the database after it, the reply, and whether the
handler called `saveDatabase()` (lines 31-33).  Every handler makes that call
after its last change to `db`, so when `saved` is true the file holds exactly
`db` as returned here, and when it is false the file is not written. -/
structure Step (α : Type) where
  db : Db
  reply : Reply α
  saved : Bool
  deriving DecidableEq

/-- The handler of `POST /api/auth/login` (lines 38-70). -/
def loginOrRegister (rt : Runtime) (clock : Clock) (db : Db) (username : JVal) :
    Step PublicUser :=
  match username with
  | .str s =>
    if s = "" ∨ rt.trim s = "" then ⟨db, .invalidInput, false⟩
    else
      let sanitizedUsername := rt.trim (rt.toLowerCase s)
      let created : Db × Bool :=
        match getProp db.users sanitizedUsername with
        | .missing =>
          ({ db with users := setProp db.users sanitizedUsername
                      (freshUser sanitizedUsername s clock) }, true)
        | _ => (db, false)
      match getProp created.1.users sanitizedUsername with
      | .record user => ⟨created.1, .ok user.publicFields, created.2⟩
      | .inherited => ⟨created.1, .ok PublicUser.ofInherited, created.2⟩
      | .missing => ⟨created.1, .typeError, created.2⟩
  | v => if v.truthy then ⟨db, .typeError, false⟩ else ⟨db, .invalidInput, false⟩

/-- The handler of `GET /api/users/:username` (lines 73-95). -/
def getProfile (rt : Runtime) (db : Db) (username : String) : Step Profile :=
  match getProp db.users (rt.toLowerCase username) with
  | .missing => ⟨db, .notFound, false⟩
  | .record user =>
    let userLinks := (values db.links).filter
      fun link => decide (link.user = user.username) && link.isPublic.truthy
    ⟨db, .ok ⟨user.publicFields, userLinks, userLinks.length⟩, false⟩
  | .inherited =>
    let userLinks := (values db.links).filter fun _ => false
    ⟨db, .ok ⟨PublicUser.ofInherited, userLinks, userLinks.length⟩, false⟩

/-- The three conditional assignments of lines 106-108. -/
def applyProfileBody (user : User) (body : ProfileBody) : User :=
  let user1 := if body.fullName.truthy then { user with fullName := body.fullName } else user
  let user2 := if body.bio ≠ .undefined then { user1 with bio := body.bio } else user1
  let user3 := if body.avatar.truthy then { user2 with avatar := body.avatar } else user2
  user3

/-- The handler of `PUT /api/users/:username` (lines 98-116), for the body as
destructured on line 99.  When `db.users[k]` is a member of `Object.prototype`
the assignments land on that member and `db` is as before; for the member
`__proto__` they are `Prototype.applyProfileBody`. -/
def updateProfile (rt : Runtime) (db : Db) (username : String) (body : ProfileBody) :
    Step User :=
  match getProp db.users (rt.toLowerCase username) with
  | .missing => ⟨db, .notFound, false⟩
  | .inherited => ⟨db, .okInherited, true⟩
  | .record user =>
    let user1 := applyProfileBody user body
    ⟨{ db with users := setProp db.users (rt.toLowerCase username) user1 }, .ok user1, true⟩

/-- The record literal of lines 128-138, for a request whose `username` is the
string `s`. -/
def newLink (rt : Runtime) (clock : Clock) (s : String) (body : CreateBody) : Link :=
  { id := toString clock.now, user := rt.toLowerCase s, title := body.title,
    url := body.url,
    description := if body.description.truthy then body.description else .str "",
    isPublic := .bool (decide (body.isPublic ≠ .bool false)),
    created := clock.iso, views := 0, clicks := 0 }

/-- The handler of `POST /api/links` (lines 121-147).  A truthy `username` that is
not a string has no `toLowerCase`, so line 130 throws before anything is stored. -/
def createLink (rt : Runtime) (clock : Clock) (db : Db) (body : CreateBody) :
    Step Link :=
  if !body.username.truthy || !body.title.truthy || !body.url.truthy then
    ⟨db, .invalidInput, false⟩
  else
    match body.username with
    | .str s =>
      let link := newLink rt clock s body
      ⟨{ db with links := setProp db.links link.id link }, .ok link, true⟩
    | _ => ⟨db, .typeError, false⟩

/-- The handler of `GET /api/users/:username/links` (lines 150-158). -/
def listLinksByUser (rt : Runtime) (db : Db) (username : String) : Step (List Link) :=
  ⟨db, .ok ((values db.links).filter fun link => decide (link.user = rt.toLowerCase username)),
    false⟩

/-- The handler of `GET /api/links/:id` (lines 161-173). -/
def getLink (db : Db) (id : String) : Step Link :=
  match getProp db.links id with
  | .missing => ⟨db, .notFound, false⟩
  | .inherited => ⟨db, .okInherited, true⟩
  | .record link =>
    let link1 := { link with views := increment link.views }
    ⟨{ db with links := setProp db.links id link1 }, .ok link1, true⟩

/-- The four conditional assignments of lines 185-188. -/
def applyLinkBody (link : Link) (body : LinkBody) : Link :=
  let link1 := if body.title.truthy then { link with title := body.title } else link
  let link2 := if body.url.truthy then { link1 with url := body.url } else link1
  let link3 :=
    if body.description ≠ .undefined then { link2 with description := body.description }
    else link2
  let link4 :=
    if body.isPublic ≠ .undefined then { link3 with isPublic := body.isPublic } else link3
  link4

/-- The handler of `PUT /api/links/:id` (lines 176-196), for the body as
destructured on line 183.  When `db.links[id]` is a member of `Object.prototype`
the assignments land on that member and `db` is as before; for the member
`__proto__` they are `Prototype.applyLinkBody`. -/
def updateLink (db : Db) (id : String) (body : LinkBody) : Step Link :=
  match getProp db.links id with
  | .missing => ⟨db, .notFound, false⟩
  | .inherited => ⟨db, .okInherited, true⟩
  | .record link =>
    let link1 := applyLinkBody link body
    ⟨{ db with links := setProp db.links id link1 }, .ok link1, true⟩

/-- The handler of `DELETE /api/links/:id` (lines 199-211). -/
def deleteLink (db : Db) (id : String) : Step Unit :=
  match getProp db.links id with
  | .missing => ⟨db, .notFound, false⟩
  | _ => ⟨{ db with links := delProp db.links id }, .ok (), true⟩

/-- Lines 224-227: `user.totalViews++` for the user stored under `key`, when
there is such a record.  When the read yields a member of `Object.prototype` the
increment lands on that member and the table is untouched. -/
def bumpTotalViews (users : Table User) (key : String) : Table User :=
  match getProp users key with
  | .record user => setProp users key { user with totalViews := increment user.totalViews }
  | _ => users

/-- The handler of `POST /api/links/:id/click` (lines 214-235).  When
`db.links[id]` is a member of `Object.prototype`, `link.user` is `undefined` and
line 224 reads the property named `undefined`. -/
def registerClick (db : Db) (id : String) : Step Nat :=
  match getProp db.links id with
  | .missing => ⟨db, .notFound, false⟩
  | .inherited => ⟨{ db with users := bumpTotalViews db.users "undefined" }, .okInherited, true⟩
  | .record link =>
    let link1 := { link with clicks := increment link.clicks }
    ⟨{ users := bumpTotalViews db.users link.user, links := setProp db.links id link1 },
      .ok link1.clicks, true⟩

/-! ## The preview page (lines 238-515 of `src/server.js`) -/

/-- The two conversions to a string that a template literal leaves to the
runtime: of a finite number (which prints `1e21` as `1e+21`), and of the array
or object with the given text, `none` when that conversion throws. -/
structure Printer where
  number : Int → String
  composite : String → Option String

/-- The conversion to a string that a template literal applies to `${v}`; `none`
when it throws. -/
def JVal.interpolate (printer : Printer) : JVal → Option String
  | .undefined => some "undefined"
  | .null => some "null"
  | .bool b => some (if b then "true" else "false")
  | .num n => some (printer.number n)
  | .infinity negative => some (if negative then "-Infinity" else "Infinity")
  | .str s => some s
  | .composite json => printer.composite json

/-- Which of the two HTML templates is sent, with the strings interpolated into
it: the error page of lines 242-291, or the interstitial page of lines 298-514
with the link's title, url, description (left out when falsy) and user, and the
id of the request. -/
inductive Page where
  | notFound
  | interstitial (title url : String) (description : Option String) (user linkId : String)
  deriving DecidableEq

/-- What `GET /preview/:id` answers.  `page` is a page sent with the given HTTP
status.  `threw` is the exception of an interpolation that throws, which the
framework answers with status 500.  `ofMember` is the interstitial template
filled from something that is not a link record: a member of `Object.prototype`
or a value written onto it; the status is 200, or 500 when a field of it does
not convert, and the embedding does not follow which. -/
inductive PreviewReply where
  | page (status : Nat) (page : Page)
  | threw
  | ofMember
  deriving DecidableEq

/-- What `GET /preview/:id` does: the database after it, the answer, and whether
`saveDatabase()` was called. -/
structure PreviewStep where
  db : Db
  reply : PreviewReply
  saved : Bool
  deriving DecidableEq

/-- The handler of `GET /preview/:id` (lines 238-515), in a process whose
`Object.prototype` carries `proto`.  Lines 295-296 look the owner up and compute
`userName`, which the template does not use.  A field that a link record does
not have is read from `Object.prototype`.  When `db.links` has no own property
`id`, line 239 reads the member of `Object.prototype` of that name, or the
value written onto it under that name, and the test of line 241 is its
truthiness. -/
def preview (printer : Printer) (proto : Prototype) (db : Db) (id : String) : PreviewStep :=
  match getProp db.links id with
  | .record link =>
    let linkDescription := link.description.orInherited proto.description
    match (link.title.orInherited proto.title).interpolate printer,
      (link.url.orInherited proto.url).interpolate printer,
      (if linkDescription.truthy then (linkDescription.interpolate printer).map some
        else some none) with
    | some title, some url, some description =>
      ⟨db, .page 200 (.interstitial title url description link.user id), false⟩
    | _, _, _ => ⟨db, .threw, false⟩
  | .inherited => ⟨db, .ofMember, false⟩
  | .missing =>
    if (proto.read id).truthy then ⟨db, .ofMember, false⟩
    else ⟨db, .page 404 .notFound, false⟩

/-- The conversions used when evaluating `preview` on the scenario, whose
records hold no array or object and print their counters in decimal. -/
def plainPrinter : Printer := ⟨fun n => toString n, fun _ => some "[object Object]"⟩

/-- The ASCII fragment of `toLowerCase` and `trim`, for evaluating the handlers
on ASCII inputs. -/
def asciiRuntime : Runtime where
  toLowerCase s := String.mk (s.data.map Char.toLower)
  trim s :=
    String.mk ((s.data.dropWhile Char.isWhitespace).reverse.dropWhile Char.isWhitespace).reverse

/-- Runs `getLink` on the same id `n` times in a row; returns the final database
and the replies in call order. -/
def getLinkTimes (db : Db) (id : String) : Nat → Db × List (Reply Link)
  | 0 => (db, [])
  | n + 1 =>
    let r := getLinkTimes db id n
    let s := getLink r.1 id
    (s.db, r.2 ++ [s.reply])

/-! ## A worked scenario

The scenario of the specification: `Ana` logs in and stores one link. -/

/-- The clock of the scenario. -/
def demoClock : Clock := ⟨1700000000000, "2023-11-14T22:13:20.000Z"⟩

/-- The user record the login of `Ana` creates. -/
def anaUser : User :=
  { username := "ana", fullName := .str "Ana", bio := .str "", avatar := .str "👤",
    totalViews := 0, created := "2023-11-14T22:13:20.000Z" }

/-- The request body `{username: "ana", title: "Site", url: "http://x.com"}`. -/
def siteBody : CreateBody :=
  ⟨.str "ana", .str "Site", .str "http://x.com", .undefined, .undefined⟩

/-- The link record that request creates. -/
def siteLink : Link :=
  { id := "1700000000000", user := "ana", title := .str "Site", url := .str "http://x.com",
    description := .str "", isPublic := .bool true, created := "2023-11-14T22:13:20.000Z",
    views := 0, clicks := 0 }

/-- The database after the login of `Ana` and the creation of her link. -/
def anaDb : Db := ⟨[("ana", anaUser)], [("1700000000000", siteLink)]⟩

/-- The update body `{isPublic: "yes"}`. -/
def yesBody : LinkBody := ⟨.undefined, .undefined, .undefined, .str "yes"⟩

/-- The link of Ana after `updateLink` with `yesBody`. -/
def yesLink : Link := { siteLink with isPublic := .str "yes" }

/-- The database after that update. -/
def yesDb : Db := ⟨[("ana", anaUser)], [("1700000000000", yesLink)]⟩

/-- The link of Ana after two fetches and one click. -/
def usedLink : Link := { siteLink with views := 2, clicks := 1 }

/-- The database after two fetches of the link and one click on it. -/
def usedDb : Db :=
  ⟨[("ana", { anaUser with totalViews := 1 })], [("1700000000000", usedLink)]⟩

/-- The link of Ana with every counter at 2^53 = 9007199254740992. -/
def fullLink : Link := { siteLink with views := 9007199254740992, clicks := 9007199254740992 }

/-- The database loaded from a file in which the counters of Ana and of her link
are 9007199254740992. -/
def fullDb : Db :=
  ⟨[("ana", { anaUser with totalViews := 9007199254740992 })], [("1700000000000", fullLink)]⟩

/-- The update body `{title: "T"}`. -/
def titleBody : LinkBody := ⟨.str "T", .undefined, .undefined, .undefined⟩

/-- The update body `{}` of a link. -/
def emptyLinkBody : LinkBody := ⟨.undefined, .undefined, .undefined, .undefined⟩

/-- The prototype after `PUT /api/links/__proto__` with `titleBody`. -/
def titleProto : Prototype := { Prototype.fresh with title := .str "T" }

/-- The update body `{fullName: "X"}`. -/
def nameBody : ProfileBody := ⟨.str "X", .undefined, .undefined⟩

/-- The update body `{}` of a profile. -/
def emptyProfileBody : ProfileBody := ⟨.undefined, .undefined, .undefined⟩

/-- The prototype after `PUT /api/users/__proto__` with `nameBody`. -/
def nameProto : Prototype := { Prototype.fresh with fullName := .str "X" }

/-- The request body `{username: "ana", url: "http://x.com"}`, without a title. -/
def untitledBody : CreateBody :=
  ⟨.str "ana", .undefined, .str "http://x.com", .undefined, .undefined⟩

/-- The request body `{username: "ana", title: "", url: "http://x.com"}`. -/
def emptyTitleBody : CreateBody :=
  ⟨.str "ana", .str "", .str "http://x.com", .undefined, .undefined⟩

/-- The request body `{username: 5, title: "Site", url: "http://x.com"}`. -/
def numericUserBody : CreateBody :=
  ⟨.num 5, .str "Site", .str "http://x.com", .undefined, .undefined⟩

/-- The request body `{username: "bob", title: "Site", url: "http://x.com"}`; no
user `bob` has logged in. -/
def bobBody : CreateBody :=
  ⟨.str "bob", .str "Site", .str "http://x.com", .undefined, .undefined⟩

/-- The link record that request creates. -/
def bobLink : Link := { siteLink with user := "bob" }

/-- The database after that request on the empty database: one link, no user. -/
def orphanDb : Db := ⟨[], [("1700000000000", bobLink)]⟩

/-- The user record the login of `undefined` creates. -/
def undefinedUser : User := { anaUser with username := "undefined", fullName := .str "undefined" }

/-- The database after the login of `undefined` on the empty database: one
user, no link. -/
def undefinedDb : Db := ⟨[("undefined", undefinedUser)], []⟩

/-! ## Keys and reachable databases -/

/-- Trimming a list of characters at both ends, as `asciiRuntime.trim` does. -/
def trimList (p : Char → Bool) (l : List Char) : List Char :=
  ((l.dropWhile p).reverse.dropWhile p).reverse

/-- The facts about `toLowerCase` and `trim` that the theorems about keys rest
on: lowercasing twice is lowercasing once, likewise trimming; a lowercased and
trimmed string is lowercased; lowercasing turns no string with a visible
character into a blank one, and adds no blank at either end. -/
structure Runtime.Lawful (rt : Runtime) : Prop where
  lower_lower : ∀ s, rt.toLowerCase (rt.toLowerCase s) = rt.toLowerCase s
  trim_trim : ∀ s, rt.trim (rt.trim s) = rt.trim s
  lower_trim_lower : ∀ s, rt.toLowerCase (rt.trim (rt.toLowerCase s)) = rt.trim (rt.toLowerCase s)
  trim_lower_ne : ∀ s, rt.trim s ≠ "" → rt.trim (rt.toLowerCase s) ≠ ""
  trim_lower_of_trim : ∀ s, rt.trim s = s → rt.trim (rt.toLowerCase s) = rt.toLowerCase s

/-- Key and field consistency: every user record is stored under its
`username`, which is non-empty, lowercased and trimmed; every link record is
stored under its `id`, and its `user` is lowercased. -/
def Db.Consistent (rt : Runtime) (db : Db) : Prop :=
  (∀ p ∈ db.users, p.2.username = p.1 ∧ p.1 ≠ "" ∧ rt.toLowerCase p.1 = p.1 ∧ rt.trim p.1 = p.1) ∧
  (∀ p ∈ db.links, p.2.id = p.1 ∧ rt.toLowerCase p.2.user = p.2.user)

/-- The databases that the nine operations produce from the empty database, for
any clock readings and any requests. -/
inductive Reachable (rt : Runtime) : Db → Prop where
  | empty : Reachable rt Db.empty
  | loginOrRegister {db : Db} (clock : Clock) (username : JVal) :
      Reachable rt db → Reachable rt (loginOrRegister rt clock db username).db
  | getProfile {db : Db} (username : String) :
      Reachable rt db → Reachable rt (getProfile rt db username).db
  | updateProfile {db : Db} (username : String) (body : ProfileBody) :
      Reachable rt db → Reachable rt (updateProfile rt db username body).db
  | createLink {db : Db} (clock : Clock) (body : CreateBody) :
      Reachable rt db → Reachable rt (createLink rt clock db body).db
  | listLinksByUser {db : Db} (username : String) :
      Reachable rt db → Reachable rt (listLinksByUser rt db username).db
  | getLink {db : Db} (id : String) :
      Reachable rt db → Reachable rt (getLink db id).db
  | updateLink {db : Db} (id : String) (body : LinkBody) :
      Reachable rt db → Reachable rt (updateLink db id body).db
  | deleteLink {db : Db} (id : String) :
      Reachable rt db → Reachable rt (deleteLink db id).db
  | registerClick {db : Db} (id : String) :
      Reachable rt db → Reachable rt (registerClick db id).db

/-- The request body `{username: "constructor", title: "Site", url: "http://x.com"}`. -/
def constructorBody : CreateBody :=
  ⟨.str "constructor", .str "Site", .str "http://x.com", .undefined, .undefined⟩

/-- The link record that request creates. -/
def constructorLink : Link := { siteLink with user := "constructor" }

/-- The database after the login of `constructor` and that request, from the
empty database: one link, no user. -/
def constructorDb : Db := ⟨[], [("1700000000000", constructorLink)]⟩

/-! ## The file `database.json` (lines 21-33) -/

/-- A JSON object as `JSON.parse` reads it: its members, in order. -/
abbrev JsonObject := List (String × JVal)

/-- The text that `JSON.stringify` writes for an array or object with the text
`l`: every number literal `Infinity` or `-Infinity` becomes `null`, and string
literals are copied.  `inString` tells whether `l` starts inside a string
literal, `escaped` whether its first character follows a backslash there, and
`skip` how many characters of a replaced literal are still to be dropped. -/
def writtenChars : Bool → Bool → Nat → List Char → List Char
  | _, _, _, [] => []
  | inString, escaped, skip + 1, _ :: rest => writtenChars inString escaped skip rest
  | true, true, 0, c :: rest => c :: writtenChars true false 0 rest
  | true, false, 0, c :: rest =>
    c :: writtenChars (c != Char.ofNat 34) (c == Char.ofNat 92) 0 rest
  | false, _, 0, c :: rest =>
    if "-Infinity".data.isPrefixOf (c :: rest) then
      "null".data ++ writtenChars false false 8 rest
    else if "Infinity".data.isPrefixOf (c :: rest) then
      "null".data ++ writtenChars false false 7 rest
    else c :: writtenChars (c == Char.ofNat 34) false 0 rest

/-- Whether the text `l` of an array or object has a number literal `Infinity`
outside its string literals, with `inString` and `escaped` as for
`writtenChars`. -/
def mentionsInfinity : Bool → Bool → List Char → Bool
  | _, _, [] => false
  | true, true, _ :: rest => mentionsInfinity true false rest
  | true, false, c :: rest =>
    mentionsInfinity (c != Char.ofNat 34) (c == Char.ofNat 92) rest
  | false, _, c :: rest =>
    "Infinity".data.isPrefixOf (c :: rest) || mentionsInfinity (c == Char.ofNat 34) false rest

/-- The value that `JSON.parse` reads back from what `JSON.stringify` wrote for
`v`: `null` for a number that is not finite, also inside an array or object. -/
def JVal.reloaded : JVal → JVal
  | .infinity _ => .null
  | .composite json => .composite (String.mk (writtenChars false false 0 json.data))
  | v => v

/-- What `JSON.stringify` writes, and `JSON.parse` reads back, for the property
`name: v` of a record: nothing when the value is `undefined`, otherwise the
value with `null` for every number that is not finite. -/
def jsonMember (name : String) (v : JVal) : JsonObject :=
  match v with
  | .undefined => []
  | v => [(name, v.reloaded)]

/-- The read `obj[name]` of a parsed record; the six and nine field names are
not property names of `Object.prototype`. -/
def JsonObject.get (o : JsonObject) (name : String) : JVal :=
  match o.lookup name with
  | some v => v
  | none => .undefined

/-- A member as the string field of a record; the handlers store only strings
in `username`, `created`, `id` and `user`. -/
def JVal.asString : JVal → String
  | .str s => s
  | _ => ""

/-- A member as the counter of a record; the handlers store only natural
numbers in `totalViews`, `views` and `clicks`. -/
def JVal.asNat : JVal → Nat
  | .num n => n.toNat
  | _ => 0

/-- The object written for a record with the given properties, in order. -/
def jsonObject : List (String × JVal) → JsonObject
  | [] => []
  | p :: rest => jsonMember p.1 p.2 ++ jsonObject rest

/-- The properties of a user record, in the order of lines 48-55. -/
def User.properties (u : User) : List (String × JVal) :=
  [("username", .str u.username), ("fullName", u.fullName), ("bio", u.bio),
    ("avatar", u.avatar), ("totalViews", .num u.totalViews), ("created", .str u.created)]

/-- A user record as written to the file. -/
def User.toJson (u : User) : JsonObject :=
  jsonObject u.properties

/-- A user record as the handlers read it off a parsed object. -/
def User.ofJson (o : JsonObject) : User :=
  { username := (o.get "username").asString, fullName := o.get "fullName",
    bio := o.get "bio", avatar := o.get "avatar",
    totalViews := (o.get "totalViews").asNat, created := (o.get "created").asString }

/-- The properties of a link record, in the order of lines 128-138. -/
def Link.properties (l : Link) : List (String × JVal) :=
  [("id", .str l.id), ("user", .str l.user), ("title", l.title), ("url", l.url),
    ("description", l.description), ("isPublic", l.isPublic), ("created", .str l.created),
    ("views", .num l.views), ("clicks", .num l.clicks)]

/-- A link record as written to the file. -/
def Link.toJson (l : Link) : JsonObject :=
  jsonObject l.properties

/-- A link record as the handlers read it off a parsed object. -/
def Link.ofJson (o : JsonObject) : Link :=
  { id := (o.get "id").asString, user := (o.get "user").asString, title := o.get "title",
    url := o.get "url", description := o.get "description", isPublic := o.get "isPublic",
    created := (o.get "created").asString, views := (o.get "views").asNat,
    clicks := (o.get "clicks").asNat }

/-- The parsed content of `database.json`: the top-level members `users` and
`links`, when the document has them. -/
structure Document where
  users : Option (Table JsonObject)
  links : Option (Table JsonObject)
  deriving DecidableEq

/-- The document that `saveDatabase` (lines 31-33) leaves in the file: what
`JSON.parse` reads from the text `JSON.stringify(db, null, 2)`. -/
def saveDatabase (db : Db) : Document :=
  ⟨some (db.users.map fun p => (p.1, p.2.toJson)),
   some (db.links.map fun p => (p.1, p.2.toJson))⟩

/-- The start-up load of lines 16-28: the empty database, over which
`Object.assign` copies the top-level members of the document when the file
exists. -/
def startup (file : Option Document) : Db :=
  match file with
  | none => Db.empty
  | some data =>
    ⟨match data.users with
      | some users => users.map fun p => (p.1, User.ofJson p.2)
      | none => Db.empty.users,
     match data.links with
      | some links => links.map fun p => (p.1, Link.ofJson p.2)
      | none => Db.empty.links⟩

/-- Whether a value neither is nor contains a non-finite number. -/
def JVal.finite : JVal → Bool
  | .infinity _ => false
  | .composite json => !mentionsInfinity false false json.data
  | _ => true

/-- Whether no field of the user record holds a non-finite number. -/
def User.finite (u : User) : Bool :=
  u.fullName.finite && u.bio.finite && u.avatar.finite

/-- Whether no field of the link record holds a non-finite number. -/
def Link.finite (l : Link) : Bool :=
  l.title.finite && l.url.finite && l.description.finite && l.isPublic.finite

/-- Whether no record of the database holds a non-finite number. -/
def Db.finite (db : Db) : Bool :=
  db.users.all (fun p => p.2.finite) && db.links.all (fun p => p.2.finite)

/-- The link of Ana with the description `[1e999, "Infinity"]`, which the
server holds as the array of `Infinity` and the string `Infinity`. -/
def hugeListLink : Link :=
  { siteLink with description := .composite "[Infinity,\"Infinity\"]" }

/-- The request body `{username: "ana", title: 1e999, url: "http://x.com"}`. -/
def hugeTitleBody : CreateBody :=
  ⟨.str "ana", .infinity false, .str "http://x.com", .undefined, .undefined⟩

/-- The link record that request creates. -/
def hugeTitleLink : Link := { siteLink with title := .infinity false }

/-- The database after the login of `Ana` and that request. -/
def hugeTitleDb : Db := ⟨[("ana", anaUser)], [("1700000000000", hugeTitleLink)]⟩

/-! ## Reading and writing tables -/

theorem lookup_replace {α : Type} (t : Table α) (j k : String) (v : α) :
    (t.map fun p => if p.1 = k then (k, v) else p).lookup j =
      if j = k then (t.lookup k).map (fun _ => v) else t.lookup j := by
  induction t with
  | nil => simp
  | cons p t ih =>
    obtain ⟨a, b⟩ := p
    rw [List.map_cons]
    by_cases ha : a = k
    · subst ha
      rw [if_pos rfl, List.lookup_cons, List.lookup_cons, ih]
      by_cases hj : j = a
      · subst hj; simp
      · have hne : (j == a) = false := by simpa using hj
        simp [hne, hj, List.lookup_cons]
    · rw [if_neg ha, List.lookup_cons, List.lookup_cons, ih]
      have hka : (k == a) = false := by simpa using fun h : k = a => ha h.symm
      by_cases hj : j = k
      · subst hj
        simp [hka, List.lookup_cons]
      · simp [hj, List.lookup_cons]

theorem lookup_append_single {α : Type} (t : Table α) (j k : String) (v : α) :
    (t ++ [(k, v)]).lookup j =
      match t.lookup j with
      | some r => some r
      | none => if j = k then some v else none := by
  induction t with
  | nil =>
    by_cases h : j = k
    · subst h; simp [List.lookup]
    · have hne : (j == k) = false := by simpa using h
      simp [List.lookup, hne, h]
  | cons p t ih =>
    obtain ⟨a, b⟩ := p
    rw [List.cons_append, List.lookup_cons, List.lookup_cons, ih]
    by_cases ha : j = a
    · subst ha; simp
    · have hne : (j == a) = false := by simpa using ha
      simp [hne]

theorem lookup_setProp_self {α : Type} (t : Table α) (k : String) (v : α) :
    (setProp t k v).lookup k = some v := by
  unfold setProp
  cases h : t.lookup k with
  | none => simp [lookup_append_single, h]
  | some r => simp [lookup_replace, h]

theorem lookup_setProp_ne {α : Type} (t : Table α) {j k : String} (v : α) (hjk : j ≠ k) :
    (setProp t k v).lookup j = t.lookup j := by
  unfold setProp
  cases h : t.lookup k with
  | none =>
    simp only [lookup_append_single, if_neg hjk]
    cases t.lookup j <;> rfl
  | some r => simp [lookup_replace, hjk]

theorem keys_setProp_of_some {α : Type} (t : Table α) (k : String) (v r : α)
    (h : t.lookup k = some r) : (setProp t k v).map Prod.fst = t.map Prod.fst := by
  unfold setProp
  simp only [h, List.map_map]
  apply List.map_congr_left
  intro p _
  by_cases hp : p.1 = k <;> simp [hp]

theorem setProp_of_none {α : Type} (t : Table α) (k : String) (v : α)
    (h : t.lookup k = none) : setProp t k v = t ++ [(k, v)] := by
  unfold setProp
  simp [h]

theorem getProp_eq_record {α : Type} (t : Table α) (k : String) (r : α) :
    getProp t k = .record r ↔ t.lookup k = some r := by
  unfold getProp
  cases h : t.lookup k with
  | none => by_cases hk : k ∈ objectPrototypeKeys <;> simp [hk]
  | some x => simp

theorem getProp_setProp_self {α : Type} (t : Table α) (k : String) (v : α) :
    getProp (setProp t k v) k = .record v :=
  (getProp_eq_record _ _ _).2 (lookup_setProp_self t k v)

theorem getProp_setProp_ne {α : Type} (t : Table α) {j k : String} (v : α) (hjk : j ≠ k) :
    getProp (setProp t k v) j = getProp t j := by
  unfold getProp
  rw [lookup_setProp_ne t v hjk]

theorem lookup_delProp {α : Type} (t : Table α) (j k : String) :
    (delProp t k).lookup j = if j = k then none else t.lookup j := by
  unfold delProp
  induction t with
  | nil => simp
  | cons p t ih =>
    obtain ⟨a, b⟩ := p
    by_cases ha : a = k
    · subst ha
      by_cases hj : j = a
      · subst hj; simpa using ih
      · have hne : (j == a) = false := by simpa using hj
        simpa [List.lookup, hne, hj] using ih
    · by_cases hj : j = a
      · subst hj
        simp [List.filter, ha, List.lookup]
      · have hne : (j == a) = false := by simpa using hj
        simp only [List.filter, ha, ne_eq, not_false_eq_true, decide_True, List.lookup, hne, ih]

/-! ## Fetching a link -/

theorem increment_of_lt (n : Nat) (h : n < 2 ^ 53) : increment n = n + 1 := by
  unfold increment
  rw [if_pos h]

theorem iterate_increment (v n : Nat) (h : v + n ≤ 2 ^ 53) : increment^[n] v = v + n := by
  induction n with
  | zero => rfl
  | succ n ih =>
    rw [Function.iterate_succ_apply', ih (by omega), increment_of_lt _ (by omega)]
    rfl

theorem getLink_of_record (db : Db) (id : String) (link : Link)
    (h : getProp db.links id = .record link) :
    getLink db id =
      ⟨⟨db.users, setProp db.links id { link with views := increment link.views }⟩,
        .ok { link with views := increment link.views }, true⟩ := by
  unfold getLink
  rw [h]

theorem getLinkTimes_spec (db : Db) (id : String) (link : Link)
    (h : getProp db.links id = .record link) (n : Nat) :
    getProp (getLinkTimes db id n).1.links id =
      .record { link with views := increment^[n] link.views } ∧
    (∀ j, j ≠ id → (getLinkTimes db id n).1.links.lookup j = db.links.lookup j) ∧
    (getLinkTimes db id n).1.links.map Prod.fst = db.links.map Prod.fst ∧
    (getLinkTimes db id n).1.users = db.users ∧
    (getLinkTimes db id n).2 =
      (List.range n).map fun k => Reply.ok { link with views := increment^[k + 1] link.views } := by
  induction n with
  | zero => exact ⟨by simpa [getLinkTimes] using h, fun _ _ => rfl, rfl, rfl, rfl⟩
  | succ n ih =>
    obtain ⟨h1, h2, h3, h4, h5⟩ := ih
    have hstep := getLink_of_record _ id _ h1
    simp only [getLinkTimes, hstep, h5, List.range_succ, List.map_append, List.map_cons,
      List.map_nil, Function.iterate_succ_apply']
    refine ⟨?_, ?_, ?_, h4, ?_⟩
    · rw [getProp_setProp_self]
    · intro j hj
      rw [lookup_setProp_ne _ _ hj]
      exact h2 j hj
    · rw [keys_setProp_of_some _ _ _ _ ((getProp_eq_record _ _ _).1 h1)]
      exact h3
    · trivial

/-- C1, as stated, fails: `views` is a double, and at 2^53 the statement
`link.views++` leaves it where it is.  On the database whose link has 2^53
views, `getLink` succeeds and the link still has 2^53 views, not one more. -/
theorem getLink_at_full_counter :
    getProp fullDb.links "1700000000000" = .record fullLink ∧
    fullLink.views = 2 ^ 53 ∧
    getLink fullDb "1700000000000" = ⟨fullDb, .ok fullLink, true⟩ ∧
    (getLinkTimes fullDb "1700000000000" 1).1 = fullDb ∧
    getProp (getLinkTimes fullDb "1700000000000" 1).1.links "1700000000000" ≠
      .record { fullLink with views := fullLink.views + 1 } := by
  decide

/-- C1, amended: when `id` names a stored link and its `views` plus `n` does not
exceed 2^53, `n` consecutive `getLink id` calls all succeed; afterwards the link
is the old record with `views` raised by exactly `n` and every other field as it
was, every other link, the set of link keys and the users table are unchanged,
and the `k`-th call answers with the record whose `views` has gone up `k`
times. -/
theorem getLink_n_times (db : Db) (id : String) (link : Link)
    (h : getProp db.links id = .record link) (n : Nat) (hn : link.views + n ≤ 2 ^ 53) :
    getProp (getLinkTimes db id n).1.links id = .record { link with views := link.views + n } ∧
    (∀ j, j ≠ id → getProp (getLinkTimes db id n).1.links j = getProp db.links j) ∧
    (getLinkTimes db id n).1.links.map Prod.fst = db.links.map Prod.fst ∧
    (getLinkTimes db id n).1.users = db.users ∧
    (getLinkTimes db id n).2.length = n ∧
    ∀ k, k < n → (getLinkTimes db id n).2.get? k =
      some (Reply.ok { link with views := link.views + (k + 1) }) := by
  obtain ⟨h1, h2, h3, h4, h5⟩ := getLinkTimes_spec db id link h n
  refine ⟨?_, ?_, h3, h4, ?_, ?_⟩
  · rw [h1, iterate_increment _ _ hn]
  · intro j hj
    unfold getProp
    rw [h2 j hj]
  · simp [h5]
  · intro k hk
    have hit := iterate_increment link.views (k + 1) (by omega)
    simp only [h5, List.get?_eq_getElem?, List.getElem?_map, List.getElem?_range hk,
      Option.map_some', hit]

/-- The worked scenario is what the handlers compute from the empty database. -/
theorem scenario_reachable :
    (loginOrRegister asciiRuntime demoClock Db.empty (.str "Ana")).db = ⟨[("ana", anaUser)], []⟩ ∧
    (createLink asciiRuntime demoClock ⟨[("ana", anaUser)], []⟩ siteBody).db = anaDb ∧
    (updateLink anaDb "1700000000000" yesBody).db = yesDb ∧
    (getLinkTimes anaDb "1700000000000" 2).1 =
      ⟨[("ana", anaUser)], [("1700000000000", { siteLink with views := 2 })]⟩ ∧
    (registerClick ⟨[("ana", anaUser)], [("1700000000000", { siteLink with views := 2 })]⟩
      "1700000000000").db = usedDb := by
  decide

/-- C1 as amended, in the scenario: two fetches of the link of Ana leave it with
2 views. -/
theorem getLink_n_times_witness :
    getProp anaDb.links "1700000000000" = .record siteLink ∧
    siteLink.views + 2 ≤ 2 ^ 53 ∧
    getProp (getLinkTimes anaDb "1700000000000" 2).1.links "1700000000000" =
      .record { siteLink with views := siteLink.views + 2 } :=
  ⟨by decide, by decide,
    (getLink_n_times anaDb "1700000000000" siteLink (by decide) 2 (by decide)).1⟩

/-! ## Registering a click -/

theorem bumpTotalViews_of_record (users : Table User) (key : String) (u : User)
    (h : getProp users key = .record u) :
    bumpTotalViews users key =
      setProp users key { u with totalViews := increment u.totalViews } := by
  unfold bumpTotalViews
  rw [h]

theorem bumpTotalViews_of_no_record (users : Table User) (key : String)
    (h : ∀ u, getProp users key ≠ .record u) : bumpTotalViews users key = users := by
  unfold bumpTotalViews
  cases hk : getProp users key with
  | record u => exact absurd hk (h u)
  | inherited => rfl
  | missing => rfl

/-- C2, as stated, fails: `clicks` and `totalViews` are doubles, and at 2^53 the
statements `link.clicks++` and `user.totalViews++` leave them where they are.
On the database whose link has 2^53 clicks and whose owner has 2^53 total
views, `registerClick` succeeds, answers 2^53 and changes nothing. -/
theorem registerClick_at_full_counter :
    getProp fullDb.links "1700000000000" = .record fullLink ∧
    fullLink.clicks = 2 ^ 53 ∧
    registerClick fullDb "1700000000000" = ⟨fullDb, .ok fullLink.clicks, true⟩ ∧
    (registerClick fullDb "1700000000000").reply ≠ .ok (fullLink.clicks + 1) ∧
    getProp (registerClick fullDb "1700000000000").db.links "1700000000000" ≠
      .record { fullLink with clicks := fullLink.clicks + 1 } := by
  decide

/-- C2, amended: when `id` names a stored link, `registerClick id` succeeds and
answers the new click count; the link is the old record with `clicks`
incremented, which raises it by exactly 1 when it is below 2^53 (so `views` and
every other field are as before), and all other links are untouched.  When a
user record is stored under the link's `user`, that record gets `totalViews`
incremented, which raises it by exactly 1 when it is below 2^53, and all other
users are untouched; when no user record is stored there, the users table is
unchanged. -/
theorem registerClick_existing (db : Db) (id : String) (link : Link)
    (h : getProp db.links id = .record link) :
    (registerClick db id).reply = .ok (increment link.clicks) ∧
    getProp (registerClick db id).db.links id =
      .record { link with clicks := increment link.clicks } ∧
    (link.clicks < 2 ^ 53 →
      (registerClick db id).reply = .ok (link.clicks + 1) ∧
      getProp (registerClick db id).db.links id =
        .record { link with clicks := link.clicks + 1 }) ∧
    (∀ j, j ≠ id → getProp (registerClick db id).db.links j = getProp db.links j) ∧
    (registerClick db id).db.links.map Prod.fst = db.links.map Prod.fst ∧
    (∀ u, getProp db.users link.user = .record u →
      getProp (registerClick db id).db.users link.user =
        .record { u with totalViews := increment u.totalViews } ∧
      (u.totalViews < 2 ^ 53 →
        getProp (registerClick db id).db.users link.user =
          .record { u with totalViews := u.totalViews + 1 }) ∧
      (∀ k, k ≠ link.user →
        getProp (registerClick db id).db.users k = getProp db.users k) ∧
      (registerClick db id).db.users.map Prod.fst = db.users.map Prod.fst) ∧
    ((∀ u, getProp db.users link.user ≠ .record u) →
      (registerClick db id).db.users = db.users) := by
  have hreg : registerClick db id =
      ⟨⟨bumpTotalViews db.users link.user,
        setProp db.links id { link with clicks := increment link.clicks }⟩,
        .ok (increment link.clicks), true⟩ := by
    unfold registerClick
    rw [h]
  rw [hreg]
  refine ⟨rfl, getProp_setProp_self _ _ _, ?_, fun j hj => getProp_setProp_ne _ _ hj,
    keys_setProp_of_some _ _ _ _ ((getProp_eq_record _ _ _).1 h), ?_, ?_⟩
  · intro hc
    rw [increment_of_lt _ hc]
    exact ⟨rfl, getProp_setProp_self _ _ _⟩
  · intro u hu
    simp only [bumpTotalViews_of_record _ _ _ hu]
    refine ⟨getProp_setProp_self _ _ _, ?_, fun k hk => getProp_setProp_ne _ _ hk,
      keys_setProp_of_some _ _ _ _ ((getProp_eq_record _ _ _).1 hu)⟩
    intro ht
    rw [increment_of_lt _ ht]
    exact getProp_setProp_self _ _ _
  · intro hno
    exact bumpTotalViews_of_no_record _ _ hno

/-- C2 as amended, in the scenario: the first click on the link of Ana answers 1. -/
theorem registerClick_existing_witness :
    getProp anaDb.links "1700000000000" = .record siteLink ∧
    siteLink.clicks < 2 ^ 53 ∧
    (registerClick anaDb "1700000000000").reply = .ok (siteLink.clicks + 1) :=
  ⟨by decide, by decide,
    ((registerClick_existing anaDb "1700000000000" siteLink (by decide)).2.2.1 (by decide)).1⟩

/-! ## The public profile -/

/-- C3, as stated, fails: after `updateLink` has stored the request's
`isPublic: "yes"`, the profile of Ana lists a link whose `isPublic` is not
`true`. -/
theorem getProfile_lists_link_not_true :
    (updateLink
      (createLink asciiRuntime demoClock
        (loginOrRegister asciiRuntime demoClock Db.empty (.str "Ana")).db siteBody).db
      "1700000000000" yesBody).db = yesDb ∧
    (getProfile asciiRuntime yesDb "Ana").reply = .ok ⟨anaUser.publicFields, [yesLink], 1⟩ ∧
    yesLink ∈ values yesDb.links ∧ yesLink.user = "ana" ∧
    yesLink.isPublic ≠ .bool true := by
  decide

/-- C3, amended: when a user record is stored under the lowercased username,
`getProfile` succeeds without changing the database; the links it returns are
exactly the stored links whose `user` is the record's `username` and whose
`isPublic` is truthy, so none of them has `isPublic` equal to `false`, and
`linkCount` is the length of the returned list. -/
theorem getProfile_links (rt : Runtime) (db : Db) (username : String) (u : User)
    (h : getProp db.users (rt.toLowerCase username) = .record u) :
    ∃ p, getProfile rt db username = ⟨db, .ok p, false⟩ ∧
      p.user = u.publicFields ∧
      p.links = (values db.links).filter
        (fun l => decide (l.user = u.username) && l.isPublic.truthy) ∧
      (∀ l, l ∈ p.links ↔
        l ∈ values db.links ∧ l.user = u.username ∧ l.isPublic.truthy = true) ∧
      (∀ l, l ∈ p.links → l.isPublic ≠ .bool false) ∧
      p.linkCount = p.links.length := by
  refine ⟨⟨u.publicFields,
    (values db.links).filter (fun l => decide (l.user = u.username) && l.isPublic.truthy),
    ((values db.links).filter
      (fun l => decide (l.user = u.username) && l.isPublic.truthy)).length⟩,
    ?_, rfl, rfl, ?_, ?_, rfl⟩
  · unfold getProfile
    rw [h]
  · intro l
    simp [List.mem_filter]
  · intro l hl hfalse
    simp [List.mem_filter, hfalse, JVal.truthy] at hl

/-- C3 as amended, in the scenario after the update with `isPublic: "yes"`. -/
theorem getProfile_links_witness :
    getProp yesDb.users (asciiRuntime.toLowerCase "Ana") = .record anaUser ∧
    ∃ p, getProfile asciiRuntime yesDb "Ana" = ⟨yesDb, .ok p, false⟩ ∧
      p.linkCount = p.links.length :=
  ⟨by decide,
    (getProfile_links asciiRuntime yesDb "Ana" anaUser (by decide)).imp
      fun _ hp => ⟨hp.1, hp.2.2.2.2.2⟩⟩

/-! ## Logging in -/

theorem login_of_record (rt : Runtime) (clock : Clock) (db : Db) (s : String) (u : User)
    (hs : ¬(s = "" ∨ rt.trim s = ""))
    (h : getProp db.users (rt.trim (rt.toLowerCase s)) = .record u) :
    loginOrRegister rt clock db (.str s) = ⟨db, .ok u.publicFields, false⟩ := by
  simp only [loginOrRegister, if_neg hs, h]

theorem login_of_inherited (rt : Runtime) (clock : Clock) (db : Db) (s : String)
    (hs : ¬(s = "" ∨ rt.trim s = ""))
    (h : getProp db.users (rt.trim (rt.toLowerCase s)) = .inherited) :
    loginOrRegister rt clock db (.str s) = ⟨db, .ok PublicUser.ofInherited, false⟩ := by
  simp only [loginOrRegister, if_neg hs, h]

theorem login_of_missing (rt : Runtime) (clock : Clock) (db : Db) (s : String)
    (hs : ¬(s = "" ∨ rt.trim s = ""))
    (h : getProp db.users (rt.trim (rt.toLowerCase s)) = .missing) :
    loginOrRegister rt clock db (.str s) =
      ⟨⟨setProp db.users (rt.trim (rt.toLowerCase s))
          (freshUser (rt.trim (rt.toLowerCase s)) s clock), db.links⟩,
        .ok (freshUser (rt.trim (rt.toLowerCase s)) s clock).publicFields, true⟩ := by
  simp only [loginOrRegister, if_neg hs, h, getProp_setProp_self]

/-- C4: for usernames `u` and `v` that are not blank and have the same
lowercased and trimmed form, a login with `u` followed by a login with `v`
(at any two clock readings): both calls succeed, the second call leaves the
whole database as the first left it and answers with the same public fields.
A login that finds a user record under that form leaves the database unchanged
and answers with the stored `fullName`, `bio` and `avatar`, whatever they are. -/
theorem login_twice (rt : Runtime) (c1 c2 : Clock) (db : Db) (u v : String)
    (hu : ¬(u = "" ∨ rt.trim u = "")) (hv : ¬(v = "" ∨ rt.trim v = ""))
    (huv : rt.trim (rt.toLowerCase u) = rt.trim (rt.toLowerCase v)) :
    (∃ p, (loginOrRegister rt c1 db (.str u)).reply = .ok p) ∧
    (loginOrRegister rt c2 (loginOrRegister rt c1 db (.str u)).db (.str v)).db =
      (loginOrRegister rt c1 db (.str u)).db ∧
    (loginOrRegister rt c2 (loginOrRegister rt c1 db (.str u)).db (.str v)).reply =
      (loginOrRegister rt c1 db (.str u)).reply ∧
    (∀ r, getProp db.users (rt.trim (rt.toLowerCase v)) = .record r →
      loginOrRegister rt c2 db (.str v) = ⟨db, .ok r.publicFields, false⟩ ∧
      (loginOrRegister rt c2 db (.str v)).reply =
        .ok ⟨.str r.username, r.fullName, r.bio, r.avatar, .num r.totalViews⟩) := by
  refine ⟨?_, ?_, ?_, ?_⟩
  · cases h : getProp db.users (rt.trim (rt.toLowerCase u)) with
    | record r => exact ⟨_, by rw [login_of_record rt c1 db u r hu h]⟩
    | inherited => exact ⟨_, by rw [login_of_inherited rt c1 db u hu h]⟩
    | missing => exact ⟨_, by rw [login_of_missing rt c1 db u hu h]⟩
  · cases h : getProp db.users (rt.trim (rt.toLowerCase u)) with
    | record r =>
      rw [login_of_record rt c1 db u r hu h, login_of_record rt c2 db v r hv (huv ▸ h)]
    | inherited =>
      rw [login_of_inherited rt c1 db u hu h, login_of_inherited rt c2 db v hv (huv ▸ h)]
    | missing =>
      rw [login_of_missing rt c1 db u hu h]
      rw [login_of_record rt c2 _ v _ hv (by rw [← huv]; exact getProp_setProp_self _ _ _)]
  · cases h : getProp db.users (rt.trim (rt.toLowerCase u)) with
    | record r =>
      rw [login_of_record rt c1 db u r hu h, login_of_record rt c2 db v r hv (huv ▸ h)]
    | inherited =>
      rw [login_of_inherited rt c1 db u hu h, login_of_inherited rt c2 db v hv (huv ▸ h)]
    | missing =>
      rw [login_of_missing rt c1 db u hu h]
      rw [login_of_record rt c2 _ v _ hv (by rw [← huv]; exact getProp_setProp_self _ _ _)]
  · intro r hr
    rw [login_of_record rt c2 db v r hv hr]
    exact ⟨rfl, rfl⟩

/-- C4 on the empty database: `Ana`, then `  aNa ` with surrounding blanks. -/
theorem login_twice_witness :
    (¬("Ana" = "" ∨ asciiRuntime.trim "Ana" = "")) ∧
    (¬("  aNa " = "" ∨ asciiRuntime.trim "  aNa " = "")) ∧
    asciiRuntime.trim (asciiRuntime.toLowerCase "Ana") =
      asciiRuntime.trim (asciiRuntime.toLowerCase "  aNa ") ∧
    (loginOrRegister asciiRuntime demoClock
      (loginOrRegister asciiRuntime demoClock Db.empty (.str "Ana")).db (.str "  aNa ")).reply =
      (loginOrRegister asciiRuntime demoClock Db.empty (.str "Ana")).reply :=
  ⟨by decide, by decide, by decide,
    (login_twice asciiRuntime demoClock demoClock Db.empty "Ana" "  aNa "
      (by decide) (by decide) (by decide)).2.2.1⟩

/-! ## Creating a link -/

theorem createLink_of_accepted (rt : Runtime) (clock : Clock) (db : Db) (body : CreateBody)
    (s : String) (hs : body.username = .str s) (hu : body.username.truthy = true)
    (ht : body.title.truthy = true) (hl : body.url.truthy = true) :
    createLink rt clock db body =
      ⟨⟨db.users, setProp db.links (toString clock.now) (newLink rt clock s body)⟩,
        .ok (newLink rt clock s body), true⟩ := by
  unfold createLink
  simp only [hu, ht, hl, Bool.not_true, Bool.or_self, Bool.false_eq_true, if_false]
  rw [hs]
  rfl

/-- C5, as stated, fails: the id is the clock reading, so an accepted
`createLink` whose clock reads the id of a stored link adds no record; it
replaces the stored record, and the 2 views and 1 click of that link are
gone. -/
theorem createLink_id_collision :
    getProp usedDb.links "1700000000000" = .record usedLink ∧
    usedLink.views = 2 ∧ usedLink.clicks = 1 ∧
    createLink asciiRuntime demoClock usedDb siteBody =
      ⟨⟨usedDb.users, [("1700000000000", siteLink)]⟩, .ok siteLink, true⟩ ∧
    siteLink.id = usedLink.id ∧
    (createLink asciiRuntime demoClock usedDb siteBody).db.links.length = usedDb.links.length ∧
    siteLink.views = 0 ∧ siteLink.clicks = 0 := by
  decide

/-- C5, amended: when the decimal string of the clock reading is not the id of
a stored link, an accepted `createLink` gives the new link that string as id,
appends exactly one record to the links table and leaves every stored link
record, its `views` and `clicks` included, and every user record unchanged. -/
theorem createLink_fresh_id (rt : Runtime) (clock : Clock) (db : Db) (body : CreateBody)
    (s : String) (hs : body.username = .str s) (hu : body.username.truthy = true)
    (ht : body.title.truthy = true) (hl : body.url.truthy = true)
    (hfresh : db.links.lookup (toString clock.now) = none) :
    ∃ link, (createLink rt clock db body).reply = .ok link ∧
      link.id = toString clock.now ∧
      (createLink rt clock db body).db.links = db.links ++ [(link.id, link)] ∧
      (createLink rt clock db body).db.links.length = db.links.length + 1 ∧
      (∀ j l, getProp db.links j = .record l →
        link.id ≠ j ∧ getProp (createLink rt clock db body).db.links j = .record l) ∧
      (createLink rt clock db body).db.users = db.users := by
  rw [createLink_of_accepted rt clock db body s hs hu ht hl]
  refine ⟨newLink rt clock s body, rfl, rfl, ?_, ?_, ?_, rfl⟩
  · exact setProp_of_none _ _ _ hfresh
  · simp [setProp_of_none _ _ _ hfresh]
  · intro j l hj
    have hne : j ≠ toString clock.now := by
      intro hjk
      subst hjk
      rw [(getProp_eq_record _ _ _).1 hj] at hfresh
      exact Option.noConfusion hfresh
    exact ⟨fun h => hne h.symm, by rw [getProp_setProp_ne _ _ hne]; exact hj⟩

/-- C5 as amended, in the scenario: the first link of Ana gets the clock reading as id. -/
theorem createLink_fresh_id_witness :
    siteBody.username = .str "ana" ∧
    (⟨[("ana", anaUser)], []⟩ : Db).links.lookup (toString demoClock.now) = none ∧
    ∃ link, (createLink asciiRuntime demoClock ⟨[("ana", anaUser)], []⟩ siteBody).reply = .ok link ∧
      link.id = toString demoClock.now :=
  ⟨rfl, by decide,
    (createLink_fresh_id asciiRuntime demoClock ⟨[("ana", anaUser)], []⟩ siteBody "ana" rfl
      (by decide) (by decide) (by decide) (by decide)).imp
      fun _ hp => ⟨hp.1, hp.2.1⟩⟩

/-! ## Rejected calls -/

theorem login_rejected (rt : Runtime) (clock : Clock) (db : Db) (username : JVal)
    (h : (loginOrRegister rt clock db username).reply.rejected = true) :
    (loginOrRegister rt clock db username).db = db ∧
    (loginOrRegister rt clock db username).saved = false := by
  cases username with
  | str s =>
    by_cases hs : s = "" ∨ rt.trim s = ""
    · simp only [loginOrRegister, if_pos hs, and_self]
    · cases hg : getProp db.users (rt.trim (rt.toLowerCase s)) with
      | record r => rw [login_of_record rt clock db s r hs hg]; exact ⟨rfl, rfl⟩
      | inherited => rw [login_of_inherited rt clock db s hs hg]; exact ⟨rfl, rfl⟩
      | missing =>
        rw [login_of_missing rt clock db s hs hg] at h
        simp [Reply.rejected] at h
  | undefined => exact ⟨rfl, rfl⟩
  | null => exact ⟨rfl, rfl⟩
  | bool b => cases b <;> exact ⟨rfl, rfl⟩
  | num n => by_cases hn : n = 0 <;> simp [loginOrRegister, JVal.truthy, hn]
  | infinity b => exact ⟨rfl, rfl⟩
  | composite j => exact ⟨rfl, rfl⟩

theorem createLink_rejected (rt : Runtime) (clock : Clock) (db : Db) (body : CreateBody)
    (h : (createLink rt clock db body).reply.rejected = true) :
    (createLink rt clock db body).db = db ∧ (createLink rt clock db body).saved = false := by
  revert h
  unfold createLink
  split_ifs with hacc
  · intro _; exact ⟨rfl, rfl⟩
  · split
    · intro h; simp [Reply.rejected] at h
    · intro _; exact ⟨rfl, rfl⟩

/-- C6: a call of any of the nine operations that is rejected with
`InvalidInput` or `NotFound` leaves the database exactly as it was and does not
call `saveDatabase`, so nothing is persisted.  (`listLinksByUser` is never
rejected; it changes and persists nothing either.) -/
theorem rejected_call_leaves_store (rt : Runtime) (clock : Clock) (db : Db) :
    (∀ username, (loginOrRegister rt clock db username).reply.rejected = true →
      (loginOrRegister rt clock db username).db = db ∧
      (loginOrRegister rt clock db username).saved = false) ∧
    (∀ username, (getProfile rt db username).reply.rejected = true →
      (getProfile rt db username).db = db ∧ (getProfile rt db username).saved = false) ∧
    (∀ username body, (updateProfile rt db username body).reply.rejected = true →
      (updateProfile rt db username body).db = db ∧
      (updateProfile rt db username body).saved = false) ∧
    (∀ body, (createLink rt clock db body).reply.rejected = true →
      (createLink rt clock db body).db = db ∧ (createLink rt clock db body).saved = false) ∧
    (∀ username, (listLinksByUser rt db username).reply.rejected = false ∧
      (listLinksByUser rt db username).db = db ∧
      (listLinksByUser rt db username).saved = false) ∧
    (∀ id, (getLink db id).reply.rejected = true →
      (getLink db id).db = db ∧ (getLink db id).saved = false) ∧
    (∀ id body, (updateLink db id body).reply.rejected = true →
      (updateLink db id body).db = db ∧ (updateLink db id body).saved = false) ∧
    (∀ id, (deleteLink db id).reply.rejected = true →
      (deleteLink db id).db = db ∧ (deleteLink db id).saved = false) ∧
    (∀ id, (registerClick db id).reply.rejected = true →
      (registerClick db id).db = db ∧ (registerClick db id).saved = false) := by
  refine ⟨login_rejected rt clock db, ?_, ?_, createLink_rejected rt clock db, ?_, ?_, ?_, ?_, ?_⟩
  · intro username
    unfold getProfile
    cases getProp db.users (rt.toLowerCase username) <;> exact fun _ => ⟨rfl, rfl⟩
  · intro username body
    unfold updateProfile
    cases hg : getProp db.users (rt.toLowerCase username) with
    | record r => intro h; simp [Reply.rejected] at h
    | inherited => intro h; simp [Reply.rejected] at h
    | missing => exact fun _ => ⟨rfl, rfl⟩
  · intro username
    exact ⟨rfl, rfl, rfl⟩
  · intro id
    unfold getLink
    cases hg : getProp db.links id with
    | record r => intro h; simp [Reply.rejected] at h
    | inherited => intro h; simp [Reply.rejected] at h
    | missing => exact fun _ => ⟨rfl, rfl⟩
  · intro id body
    unfold updateLink
    cases hg : getProp db.links id with
    | record r => intro h; simp [Reply.rejected] at h
    | inherited => intro h; simp [Reply.rejected] at h
    | missing => exact fun _ => ⟨rfl, rfl⟩
  · intro id
    unfold deleteLink
    cases hg : getProp db.links id with
    | record r => intro h; simp [Reply.rejected] at h
    | inherited => intro h; simp [Reply.rejected] at h
    | missing => exact fun _ => ⟨rfl, rfl⟩
  · intro id
    unfold registerClick
    cases hg : getProp db.links id with
    | record r => intro h; simp [Reply.rejected] at h
    | inherited => intro h; simp [Reply.rejected] at h
    | missing => exact fun _ => ⟨rfl, rfl⟩

/-- C6 in the scenario: `createLink` with title `""` is rejected and creates no record. -/
theorem rejected_call_leaves_store_witness :
    (createLink asciiRuntime demoClock anaDb emptyTitleBody).reply = .invalidInput ∧
    (createLink asciiRuntime demoClock anaDb emptyTitleBody).db = anaDb ∧
    (createLink asciiRuntime demoClock anaDb emptyTitleBody).saved = false :=
  ⟨by decide,
    (rejected_call_leaves_store asciiRuntime demoClock anaDb).2.2.2.1 emptyTitleBody
      (by decide)⟩

/-! ## Deleting a link -/

theorem getProp_delProp_ne {α : Type} (t : Table α) {j k : String} (hjk : j ≠ k) :
    getProp (delProp t k) j = getProp t j := by
  unfold getProp
  rw [lookup_delProp, if_neg hjk]

theorem getProp_delProp_self {α : Type} (t : Table α) (k : String)
    (hk : k ∉ objectPrototypeKeys) : getProp (delProp t k) k = .missing := by
  unfold getProp
  rw [lookup_delProp, if_pos rfl]
  simp [hk]

/-- Deleting a stored link removes the own property `id` and nothing else; when
`id` is not a property name of `Object.prototype`, every later call on that id
is answered `NotFound`. -/
theorem deleteLink_existing (db : Db) (id : String) (link : Link)
    (h : getProp db.links id = .record link) :
    deleteLink db id = ⟨⟨db.users, delProp db.links id⟩, .ok (), true⟩ ∧
    (delProp db.links id).lookup id = none ∧
    (∀ j, j ≠ id → getProp (delProp db.links id) j = getProp db.links j) ∧
    (id ∉ objectPrototypeKeys →
      (getLink ⟨db.users, delProp db.links id⟩ id).reply = .notFound ∧
      (∀ body, (updateLink ⟨db.users, delProp db.links id⟩ id body).reply = .notFound) ∧
      (deleteLink ⟨db.users, delProp db.links id⟩ id).reply = .notFound ∧
      (registerClick ⟨db.users, delProp db.links id⟩ id).reply = .notFound) := by
  refine ⟨?_, ?_, fun j hj => getProp_delProp_ne _ hj, ?_⟩
  · unfold deleteLink
    rw [h]
  · rw [lookup_delProp, if_pos rfl]
  · intro hk
    have hm := getProp_delProp_self db.links id hk
    refine ⟨?_, ?_, ?_, ?_⟩
    · unfold getLink; simp only [hm]
    · intro body; unfold updateLink; simp only [hm]
    · unfold deleteLink; simp only [hm]
    · unfold registerClick; simp only [hm]

/-- An id that is neither stored nor a property name of `Object.prototype` is
answered `NotFound` by `deleteLink`. -/
theorem deleteLink_missing (db : Db) (id : String) (h : getProp db.links id = .missing) :
    deleteLink db id = ⟨db, .notFound, false⟩ := by
  unfold deleteLink
  rw [h]

/-- C7 at the id `constructor`: the database of the scenario stores no link
under it, and `deleteLink` answers success instead of `NotFound`; so do
`getLink`, `updateLink` and `registerClick`, and nothing is changed. -/
theorem deleteLink_constructor :
    anaDb.links.lookup "constructor" = none ∧
    deleteLink anaDb "constructor" = ⟨anaDb, .ok (), true⟩ ∧
    getLink anaDb "constructor" = ⟨anaDb, .okInherited, true⟩ ∧
    updateLink anaDb "constructor" yesBody = ⟨anaDb, .okInherited, true⟩ ∧
    registerClick anaDb "constructor" = ⟨anaDb, .okInherited, true⟩ := by
  decide

/-! ## Updating a link -/

theorem inheritLinkBody_fresh (own : LinkBody) : inheritLinkBody Prototype.fresh own = own := by
  obtain ⟨t, u, d, p⟩ := own
  simp only [inheritLinkBody, JVal.orInherited, Prototype.fresh]
  congr 1 <;> split_ifs with h <;> first | exact h.symm | rfl

/-- For a stored link and any destructured body, `updateLink` succeeds; the
stored and returned record has the destructured `title` when that is truthy
and the old one otherwise, likewise `url`; it has the destructured
`description` whenever that is not `undefined` and the old one otherwise,
likewise `isPublic`; `id`, `user`, `created`, `views` and `clicks`, every other
link and the users table are unchanged.  On a fresh prototype the destructured
body is the request body (`inheritLinkBody_fresh`). -/
theorem updateLink_existing (db : Db) (id : String) (link : Link) (body : LinkBody)
    (h : getProp db.links id = .record link) :
    ∃ l, (updateLink db id body).reply = .ok l ∧
      getProp (updateLink db id body).db.links id = .record l ∧
      l.title = (if body.title.truthy then body.title else link.title) ∧
      l.url = (if body.url.truthy then body.url else link.url) ∧
      l.description =
        (if body.description ≠ .undefined then body.description else link.description) ∧
      l.isPublic = (if body.isPublic ≠ .undefined then body.isPublic else link.isPublic) ∧
      l.id = link.id ∧ l.user = link.user ∧ l.created = link.created ∧
      l.views = link.views ∧ l.clicks = link.clicks ∧
      (∀ j, j ≠ id → getProp (updateLink db id body).db.links j = getProp db.links j) ∧
      (updateLink db id body).db.links.map Prod.fst = db.links.map Prod.fst ∧
      (updateLink db id body).db.users = db.users := by
  have hup : updateLink db id body =
      ⟨⟨db.users, setProp db.links id (applyLinkBody link body)⟩,
        .ok (applyLinkBody link body), true⟩ := by
    unfold updateLink
    rw [h]
  rw [hup]
  refine ⟨applyLinkBody link body, rfl, getProp_setProp_self _ _ _, ?_, ?_, ?_, ?_, ?_, ?_,
    ?_, ?_, ?_, fun j hj => getProp_setProp_ne _ _ hj,
    keys_setProp_of_some _ _ _ _ ((getProp_eq_record _ _ _).1 h), rfl⟩ <;>
  unfold applyLinkBody <;> split_ifs <;> rfl

/-- C8 after a write through `__proto__`: `PUT /api/links/__proto__` with
`{title: "T"}` is not rejected, although no link is stored under that id, and
writes `title` onto `Object.prototype`.  The body `{}` of the next request has
no title, yet the handler destructures the inherited `"T"` from it and
overwrites the stored title `"Site"` of the link of Ana. -/
theorem updateLink_inherits_title :
    getProp anaDb.links "__proto__" = .inherited ∧
    updateLink anaDb "__proto__" (inheritLinkBody Prototype.fresh titleBody) =
      ⟨anaDb, .okInherited, true⟩ ∧
    Prototype.fresh.applyLinkBody (inheritLinkBody Prototype.fresh titleBody) = titleProto ∧
    emptyLinkBody.title = .undefined ∧
    getProp anaDb.links "1700000000000" = .record siteLink ∧
    siteLink.title = .str "Site" ∧
    updateLink anaDb "1700000000000" (inheritLinkBody titleProto emptyLinkBody) =
      ⟨⟨[("ana", anaUser)], [("1700000000000", { siteLink with title := .str "T" })]⟩,
        .ok { siteLink with title := .str "T" }, true⟩ := by
  decide

/-! ## Updating a profile -/

theorem inheritProfileBody_fresh (own : ProfileBody) :
    inheritProfileBody Prototype.fresh own = own := by
  obtain ⟨n, b, a⟩ := own
  simp only [inheritProfileBody, JVal.orInherited, Prototype.fresh]
  congr 1 <;> split_ifs with h <;> first | exact h.symm | rfl

/-- For a stored user and any destructured body, `updateProfile` succeeds; the
stored and returned record has the destructured `fullName` when that is truthy
and the old one otherwise, likewise `avatar`; it has the destructured `bio`
whenever that is not `undefined` and the old one otherwise; `username`,
`totalViews` and `created`, every other user and the links table are unchanged.
On a fresh prototype the destructured body is the request body
(`inheritProfileBody_fresh`). -/
theorem updateProfile_existing (rt : Runtime) (db : Db) (username : String) (user : User)
    (body : ProfileBody) (h : getProp db.users (rt.toLowerCase username) = .record user) :
    ∃ u, (updateProfile rt db username body).reply = .ok u ∧
      getProp (updateProfile rt db username body).db.users (rt.toLowerCase username) =
        .record u ∧
      u.fullName = (if body.fullName.truthy then body.fullName else user.fullName) ∧
      u.avatar = (if body.avatar.truthy then body.avatar else user.avatar) ∧
      u.bio = (if body.bio ≠ .undefined then body.bio else user.bio) ∧
      u.username = user.username ∧ u.totalViews = user.totalViews ∧
      u.created = user.created ∧
      (∀ k, k ≠ rt.toLowerCase username →
        getProp (updateProfile rt db username body).db.users k = getProp db.users k) ∧
      (updateProfile rt db username body).db.users.map Prod.fst = db.users.map Prod.fst ∧
      (updateProfile rt db username body).db.links = db.links := by
  have hup : updateProfile rt db username body =
      ⟨⟨setProp db.users (rt.toLowerCase username) (applyProfileBody user body), db.links⟩,
        .ok (applyProfileBody user body), true⟩ := by
    unfold updateProfile
    rw [h]
  rw [hup]
  refine ⟨applyProfileBody user body, rfl, getProp_setProp_self _ _ _, ?_, ?_, ?_, ?_, ?_, ?_,
    fun j hj => getProp_setProp_ne _ _ hj,
    keys_setProp_of_some _ _ _ _ ((getProp_eq_record _ _ _).1 h), rfl⟩ <;>
  unfold applyProfileBody <;> split_ifs <;> rfl

/-- C9 after a write through `__proto__`: `PUT /api/users/__proto__` with
`{fullName: "X"}` is not rejected, although no user is stored under that name,
and writes `fullName` onto `Object.prototype`.  The body `{}` of the next
request has no fullName, yet the handler destructures the inherited `"X"` from
it and overwrites the stored fullName `"Ana"` of the user Ana. -/
theorem updateProfile_inherits_fullName :
    getProp anaDb.users (asciiRuntime.toLowerCase "__proto__") = .inherited ∧
    updateProfile asciiRuntime anaDb "__proto__" (inheritProfileBody Prototype.fresh nameBody) =
      ⟨anaDb, .okInherited, true⟩ ∧
    Prototype.fresh.applyProfileBody (inheritProfileBody Prototype.fresh nameBody) =
      nameProto ∧
    emptyProfileBody.fullName = .undefined ∧
    getProp anaDb.users (asciiRuntime.toLowerCase "ana") = .record anaUser ∧
    anaUser.fullName = .str "Ana" ∧
    updateProfile asciiRuntime anaDb "ana" (inheritProfileBody nameProto emptyProfileBody) =
      ⟨⟨[("ana", { anaUser with fullName := .str "X" })], [("1700000000000", siteLink)]⟩,
        .ok { anaUser with fullName := .str "X" }, true⟩ := by
  decide

/-! ## The outcome of creating a link -/

/-- C10, as stated, fails: with `username: 5` none of `username`, `title`, `url`
is missing or empty, yet the call does not succeed: `username.toLowerCase` is
not a function, the handler throws and stores nothing. -/
theorem createLink_numeric_username :
    numericUserBody.username.truthy = true ∧ numericUserBody.title.truthy = true ∧
    numericUserBody.url.truthy = true ∧
    createLink asciiRuntime demoClock anaDb numericUserBody = ⟨anaDb, .typeError, false⟩ := by
  decide

theorem inheritCreateBody_of_unwritten (proto : Prototype) (own : CreateBody)
    (h : proto.title = .undefined ∧ proto.url = .undefined ∧
      proto.description = .undefined ∧ proto.isPublic = .undefined) :
    inheritCreateBody proto own = own := by
  obtain ⟨n, t, u, d, p⟩ := own
  obtain ⟨h1, h2, h3, h4⟩ := h
  simp only [inheritCreateBody, JVal.orInherited, h1, h2, h3, h4]
  congr 1 <;> split_ifs with h <;> first | exact h.symm | rfl

/-- After `PUT /api/links/__proto__` with `{title: "T"}` a request without a
title is accepted: the handler destructures the inherited `"T"` and stores
it. -/
theorem createLink_inherits_title :
    untitledBody.title = .undefined ∧
    (createLink asciiRuntime demoClock Db.empty
      (inheritCreateBody Prototype.fresh untitledBody)).reply = .invalidInput ∧
    (createLink asciiRuntime demoClock Db.empty
      (inheritCreateBody titleProto untitledBody)).reply =
        .ok { siteLink with title := .str "T" } := by
  decide

/-- C10, amended: in a process in which nothing has been written onto
`Object.prototype` under the names `title`, `url`, `description` and
`isPublic`, `createLink` answers `InvalidInput` if and only if at least one of
`username`, `title`, `url` is missing from the request body or empty (falsy).
Otherwise, when `username` is a string, it succeeds whether or not a user
record exists for it, leaves the users table unchanged, and stores under the
new id, persists and returns a record with `user` the lowercased username, the
given `title` and `url`, `description` the given one or the empty string when
that is missing or empty, `isPublic` equal to `false` exactly when the
request's `isPublic` is `false` and to `true` in every other case, `views` 0
and `clicks` 0. -/
theorem createLink_outcome (rt : Runtime) (clock : Clock) (db : Db) (proto : Prototype)
    (own : CreateBody)
    (hproto : proto.title = .undefined ∧ proto.url = .undefined ∧
      proto.description = .undefined ∧ proto.isPublic = .undefined) :
    ((createLink rt clock db (inheritCreateBody proto own)).reply = .invalidInput ↔
      (own.username.truthy = false ∨ own.title.truthy = false ∨ own.url.truthy = false)) ∧
    (∀ s, own.username = .str s → own.username.truthy = true →
      own.title.truthy = true → own.url.truthy = true →
      ∃ link, (createLink rt clock db (inheritCreateBody proto own)).reply = .ok link ∧
        getProp (createLink rt clock db (inheritCreateBody proto own)).db.links link.id =
          .record link ∧
        (createLink rt clock db (inheritCreateBody proto own)).saved = true ∧
        (createLink rt clock db (inheritCreateBody proto own)).db.users = db.users ∧
        link.id = toString clock.now ∧
        link.user = rt.toLowerCase s ∧ link.title = own.title ∧ link.url = own.url ∧
        link.description =
          (if own.description.truthy then own.description else .str "") ∧
        (link.isPublic = .bool false ↔ own.isPublic = .bool false) ∧
        (own.isPublic ≠ .bool false → link.isPublic = .bool true) ∧
        link.views = 0 ∧ link.clicks = 0) := by
  rw [inheritCreateBody_of_unwritten proto own hproto]
  constructor
  · unfold createLink
    split_ifs with hacc
    · simp only [true_iff]
      simpa [Bool.or_eq_true, or_assoc] using hacc
    · have hacc1 : ¬(own.username.truthy = false ∨ own.title.truthy = false ∨
          own.url.truthy = false) := by
        simpa [Bool.or_eq_true, or_assoc] using hacc
      split <;> simp [hacc1]
  · intro s hs hu ht hl
    rw [createLink_of_accepted rt clock db own s hs hu ht hl]
    refine ⟨newLink rt clock s own, rfl, getProp_setProp_self _ _ _, rfl, rfl, rfl, rfl, rfl,
      rfl, rfl, ?_, ?_, rfl, rfl⟩
    · by_cases hp : own.isPublic = .bool false <;> simp [newLink, hp]
    · intro hp
      simp [newLink, hp]

/-- C10 as amended, at the request of the specification on a fresh prototype:
`isPublic` is `true`, `views` and `clicks` are 0. -/
theorem createLink_outcome_witness :
    siteBody.username = .str "ana" ∧
    ∃ link, (createLink asciiRuntime demoClock Db.empty
        (inheritCreateBody Prototype.fresh siteBody)).reply = .ok link ∧
      link.isPublic = .bool true ∧ link.views = 0 ∧ link.clicks = 0 :=
  ⟨rfl,
    ((createLink_outcome asciiRuntime demoClock Db.empty Prototype.fresh siteBody
      ⟨rfl, rfl, rfl, rfl⟩).2 "ana" rfl (by decide) (by decide) (by decide)).imp
      fun _ hp => ⟨hp.1, hp.2.2.2.2.2.2.2.2.2.2.1 (by decide), hp.2.2.2.2.2.2.2.2.2.2.2⟩⟩

/-! ## Registering a new user -/

theorem lookup_of_getProp_missing {α : Type} (t : Table α) (k : String)
    (h : getProp t k = .missing) : t.lookup k = none ∧ k ∉ objectPrototypeKeys := by
  unfold getProp at h
  cases hk : t.lookup k with
  | some r => simp [hk] at h
  | none =>
    refine ⟨rfl, ?_⟩
    intro hmem
    simp [hk, hmem] at h

theorem getProp_missing_of {α : Type} (t : Table α) (k : String)
    (h : t.lookup k = none) (hk : k ∉ objectPrototypeKeys) : getProp t k = .missing := by
  unfold getProp
  simp [h, hk]

/-- When the lowercased and trimmed username is neither a stored key nor a
property name of `Object.prototype`, the login appends exactly one user record
under that key, with the defaults of lines 48-55, changes no other user and no
link, persists, and answers with the public fields of the new record. -/
theorem login_new_user (rt : Runtime) (clock : Clock) (db : Db) (s : String)
    (hs : ¬(s = "" ∨ rt.trim s = ""))
    (h : getProp db.users (rt.trim (rt.toLowerCase s)) = .missing) :
    (loginOrRegister rt clock db (.str s)).reply =
      .ok ⟨.str (rt.trim (rt.toLowerCase s)), .str s, .str "", .str "👤", .num 0⟩ ∧
    (loginOrRegister rt clock db (.str s)).db.users =
      db.users ++ [(rt.trim (rt.toLowerCase s),
        ⟨rt.trim (rt.toLowerCase s), .str s, .str "", .str "👤", 0, clock.iso⟩)] ∧
    (∀ j, j ≠ rt.trim (rt.toLowerCase s) →
      getProp (loginOrRegister rt clock db (.str s)).db.users j = getProp db.users j) ∧
    (loginOrRegister rt clock db (.str s)).db.links = db.links ∧
    (loginOrRegister rt clock db (.str s)).saved = true := by
  rw [login_of_missing rt clock db s hs h]
  refine ⟨rfl, ?_, fun j hj => getProp_setProp_ne _ _ hj, rfl, rfl⟩
  exact setProp_of_none _ _ _ (lookup_of_getProp_missing _ _ h).1

/-- C11 at the username `constructor`: no user record is stored under
`constructor`, yet the login adds no record, persists nothing and answers with
five `undefined` fields; the same login of `Ana` creates the user `ana` with
`fullName` `Ana`. -/
theorem login_constructor :
    asciiRuntime.trim (asciiRuntime.toLowerCase "constructor") = "constructor" ∧
    Db.empty.users.lookup "constructor" = none ∧
    loginOrRegister asciiRuntime demoClock Db.empty (.str "constructor") =
      ⟨Db.empty, .ok ⟨.undefined, .undefined, .undefined, .undefined, .undefined⟩, false⟩ ∧
    loginOrRegister asciiRuntime demoClock Db.empty (.str "Ana") =
      ⟨⟨[("ana", anaUser)], []⟩,
        .ok ⟨.str "ana", .str "Ana", .str "", .str "👤", .num 0⟩, true⟩ := by
  decide

/-- C12: a login without `username` is answered `InvalidInput`; a login whose
`username` is a string is answered `InvalidInput` if and only if the string is
empty or empty after trimming, and succeeds for every other string. -/
theorem login_invalid_iff_blank (rt : Runtime) (clock : Clock) (db : Db) :
    (loginOrRegister rt clock db .undefined).reply = .invalidInput ∧
    ∀ s, ((loginOrRegister rt clock db (.str s)).reply = .invalidInput ↔
        (s = "" ∨ rt.trim s = "")) ∧
      (¬(s = "" ∨ rt.trim s = "") →
        ∃ p, (loginOrRegister rt clock db (.str s)).reply = .ok p) := by
  refine ⟨rfl, fun s => ?_⟩
  by_cases hs : s = "" ∨ rt.trim s = ""
  · refine ⟨⟨fun _ => hs, fun _ => ?_⟩, fun h => absurd hs h⟩
    simp only [loginOrRegister, if_pos hs]
  · have hok : ∃ p, (loginOrRegister rt clock db (.str s)).reply = .ok p := by
      cases h : getProp db.users (rt.trim (rt.toLowerCase s)) with
      | record r => exact ⟨_, by rw [login_of_record rt clock db s r hs h]⟩
      | inherited => exact ⟨_, by rw [login_of_inherited rt clock db s hs h]⟩
      | missing => exact ⟨_, by rw [login_of_missing rt clock db s hs h]⟩
    refine ⟨⟨fun h => ?_, fun h => absurd h hs⟩, fun _ => hok⟩
    obtain ⟨p, hp⟩ := hok
    rw [hp] at h
    exact Reply.noConfusion h

/-- C12 at three usernames: blanks only, a name, and a name between blanks. -/
theorem login_invalid_iff_blank_witness :
    (loginOrRegister asciiRuntime demoClock Db.empty (.str "   ")).reply = .invalidInput ∧
    (∃ p, (loginOrRegister asciiRuntime demoClock Db.empty (.str " Ana ")).reply = .ok p) :=
  ⟨((login_invalid_iff_blank asciiRuntime demoClock Db.empty).2 "   ").1.2 (by decide),
    ((login_invalid_iff_blank asciiRuntime demoClock Db.empty).2 " Ana ").2 (by decide)⟩

/-! ## Listing the links of a user -/

/-- C13, as stated, fails: `createLink` for `bob` on the empty database stores a
link although no user `bob` exists; `listLinksByUser` then returns that link,
not the empty list. -/
theorem listLinksByUser_without_user :
    createLink asciiRuntime demoClock Db.empty bobBody = ⟨orphanDb, .ok bobLink, true⟩ ∧
    orphanDb.users = [] ∧
    listLinksByUser asciiRuntime orphanDb "bob" = ⟨orphanDb, .ok [bobLink], false⟩ := by
  decide

/-- C13, amended: `listLinksByUser` never fails and changes nothing; it returns
exactly the stored links, public and private alike, whose `user` is the
lowercased username, whether or not a user record exists for it; the list is
empty exactly when no stored link has that `user`; two usernames with the same
lowercased form get the same list. -/
theorem listLinksByUser_links (rt : Runtime) (db : Db) (u v : String) :
    ∃ ls, listLinksByUser rt db u = ⟨db, .ok ls, false⟩ ∧
      ls = (values db.links).filter (fun l => decide (l.user = rt.toLowerCase u)) ∧
      (∀ l, l ∈ ls ↔ l ∈ values db.links ∧ l.user = rt.toLowerCase u) ∧
      (ls = [] ↔ ∀ l, l ∈ values db.links → l.user ≠ rt.toLowerCase u) ∧
      (rt.toLowerCase u = rt.toLowerCase v →
        listLinksByUser rt db v = listLinksByUser rt db u) := by
  refine ⟨_, rfl, rfl, ?_, ?_, ?_⟩
  · intro l
    simp [List.mem_filter]
  · simp [List.filter_eq_nil_iff]
  · intro h
    unfold listLinksByUser
    rw [h]

/-! ## Unknown users -/

theorem getProfile_missing (rt : Runtime) (db : Db) (username : String)
    (h : getProp db.users (rt.toLowerCase username) = .missing) :
    getProfile rt db username = ⟨db, .notFound, false⟩ := by
  unfold getProfile
  rw [h]

theorem updateProfile_missing (rt : Runtime) (db : Db) (username : String)
    (body : ProfileBody) (h : getProp db.users (rt.toLowerCase username) = .missing) :
    updateProfile rt db username body = ⟨db, .notFound, false⟩ := by
  unfold updateProfile
  rw [h]

/-- When the lowercased username is not a property name of `Object.prototype`,
`getProfile` and `updateProfile` answer `NotFound` exactly when no user record
is stored under it; two usernames with the same lowercased form get the same
answers. -/
theorem profile_notFound_iff (rt : Runtime) (db : Db) (u v : String) (body : ProfileBody)
    (hk : rt.toLowerCase u ∉ objectPrototypeKeys) :
    ((getProfile rt db u).reply = .notFound ↔ db.users.lookup (rt.toLowerCase u) = none) ∧
    ((updateProfile rt db u body).reply = .notFound ↔
      db.users.lookup (rt.toLowerCase u) = none) ∧
    (rt.toLowerCase u = rt.toLowerCase v →
      getProfile rt db v = getProfile rt db u ∧
      updateProfile rt db v body = updateProfile rt db u body) := by
  refine ⟨?_, ?_, ?_⟩
  · cases hl : db.users.lookup (rt.toLowerCase u) with
    | none => simp [getProfile_missing rt db u (getProp_missing_of _ _ hl hk)]
    | some r => simp [getProfile, (getProp_eq_record _ _ _).2 hl]
  · cases hl : db.users.lookup (rt.toLowerCase u) with
    | none => simp [updateProfile_missing rt db u body (getProp_missing_of _ _ hl hk)]
    | some r => simp [updateProfile, (getProp_eq_record _ _ _).2 hl]
  · intro h
    unfold getProfile updateProfile
    rw [h]
    exact ⟨rfl, rfl⟩

/-- C14 at the username `constructor`: the database of the scenario stores no
user under it, yet `getProfile` answers success with five `undefined` fields and
no link, and `updateProfile` answers success, instead of `NotFound`. -/
theorem profile_constructor :
    asciiRuntime.toLowerCase "constructor" = "constructor" ∧
    anaDb.users.lookup "constructor" = none ∧
    getProfile asciiRuntime anaDb "constructor" =
      ⟨anaDb, .ok ⟨⟨.undefined, .undefined, .undefined, .undefined, .undefined⟩, [], 0⟩,
        false⟩ ∧
    updateProfile asciiRuntime anaDb "constructor" ⟨.str "X", .undefined, .undefined⟩ =
      ⟨anaDb, .okInherited, true⟩ := by
  decide

/-! ## Who changes `totalViews` -/

theorem login_keeps_users (rt : Runtime) (clock : Clock) (db : Db) (username : JVal)
    (k : String) (u : User) (h : getProp db.users k = .record u) :
    getProp (loginOrRegister rt clock db username).db.users k = .record u := by
  cases username with
  | str s =>
    by_cases hs : s = "" ∨ rt.trim s = ""
    · simpa only [loginOrRegister, if_pos hs] using h
    · cases hg : getProp db.users (rt.trim (rt.toLowerCase s)) with
      | record r => rw [login_of_record rt clock db s r hs hg]; exact h
      | inherited => rw [login_of_inherited rt clock db s hs hg]; exact h
      | missing =>
        rw [login_of_missing rt clock db s hs hg]
        have hne : k ≠ rt.trim (rt.toLowerCase s) := by
          intro hk
          rw [hk, hg] at h
          exact Slot.noConfusion h
        rw [getProp_setProp_ne _ _ hne]
        exact h
  | undefined => exact h
  | null => exact h
  | bool b => cases b <;> exact h
  | num n => by_cases hn : n = 0 <;> simpa [loginOrRegister, JVal.truthy, hn] using h
  | infinity b => exact h
  | composite j => exact h

theorem createLink_keeps_users (rt : Runtime) (clock : Clock) (db : Db) (body : CreateBody) :
    (createLink rt clock db body).db.users = db.users := by
  unfold createLink
  split_ifs
  · rfl
  · split <;> rfl

theorem totalViews_applyProfileBody (user : User) (body : ProfileBody) :
    (applyProfileBody user body).totalViews = user.totalViews := by
  unfold applyProfileBody
  split_ifs <;> rfl

/-- Every operation other than `registerClick` leaves the `totalViews` of every
stored user as it was; `registerClick` on a stored link raises the
`totalViews` of the user stored under the link's `user` by exactly 1 (while it
is below 2^53, where the counter stops) and leaves every other user record as
it was. -/
theorem totalViews_frame (rt : Runtime) (clock : Clock) (db : Db) (k : String) (u : User)
    (h : getProp db.users k = .record u) :
    (∀ username, getProp (loginOrRegister rt clock db username).db.users k = .record u) ∧
    (∀ username, (getProfile rt db username).db.users = db.users) ∧
    (∀ username body, ∃ r,
      getProp (updateProfile rt db username body).db.users k = .record r ∧
      r.totalViews = u.totalViews) ∧
    (∀ body, (createLink rt clock db body).db.users = db.users) ∧
    (∀ username, (listLinksByUser rt db username).db.users = db.users) ∧
    (∀ id, (getLink db id).db.users = db.users) ∧
    (∀ id body, (updateLink db id body).db.users = db.users) ∧
    (∀ id, (deleteLink db id).db.users = db.users) ∧
    (∀ id link, getProp db.links id = .record link →
      (k = link.user → getProp (registerClick db id).db.users k =
        .record { u with totalViews := increment u.totalViews } ∧
        (u.totalViews < 2 ^ 53 → increment u.totalViews = u.totalViews + 1)) ∧
      (k ≠ link.user → getProp (registerClick db id).db.users k = .record u)) := by
  refine ⟨fun username => login_keeps_users rt clock db username k u h, ?_, ?_,
    createLink_keeps_users rt clock db, fun _ => rfl, ?_, ?_, ?_, ?_⟩
  · intro username
    unfold getProfile
    cases getProp db.users (rt.toLowerCase username) <;> rfl
  · intro username body
    unfold updateProfile
    cases hg : getProp db.users (rt.toLowerCase username) with
    | missing => exact ⟨u, h, rfl⟩
    | inherited => exact ⟨u, h, rfl⟩
    | record r =>
      by_cases hk : k = rt.toLowerCase username
      · subst hk
        rw [hg] at h
        cases h
        exact ⟨_, getProp_setProp_self _ _ _, totalViews_applyProfileBody _ _⟩
      · exact ⟨u, by simpa only [getProp_setProp_ne _ _ hk] using h, rfl⟩
  · intro id
    unfold getLink
    cases getProp db.links id <;> rfl
  · intro id body
    unfold updateLink
    cases getProp db.links id <;> rfl
  · intro id
    unfold deleteLink
    cases getProp db.links id <;> rfl
  · intro id link hl
    have hreg : (registerClick db id).db.users = bumpTotalViews db.users link.user := by
      unfold registerClick
      rw [hl]
    rw [hreg]
    constructor
    · intro hk
      subst hk
      rw [bumpTotalViews_of_record _ _ _ h]
      exact ⟨getProp_setProp_self _ _ _, increment_of_lt _⟩
    · intro hk
      cases hg : getProp db.users link.user with
      | record r =>
        rw [bumpTotalViews_of_record _ _ _ hg, getProp_setProp_ne _ _ hk]
        exact h
      | inherited =>
        rw [bumpTotalViews_of_no_record _ _ (by intro r hr; rw [hg] at hr; cases hr)]
        exact h
      | missing =>
        rw [bumpTotalViews_of_no_record _ _ (by intro r hr; rw [hg] at hr; cases hr)]
        exact h

/-- C15 at the id `constructor`: after the login of `undefined` the database
holds one user and no link; `registerClick` on `constructor` is not rejected and
raises the `totalViews` of that user from 0 to 1, although no link was
clicked. -/
theorem registerClick_constructor_bumps_user :
    loginOrRegister asciiRuntime demoClock Db.empty (.str "undefined") =
      ⟨undefinedDb, .ok undefinedUser.publicFields, true⟩ ∧
    undefinedDb.links = [] ∧ undefinedUser.totalViews = 0 ∧
    registerClick undefinedDb "constructor" =
      ⟨⟨[("undefined", { undefinedUser with totalViews := 1 })], []⟩, .okInherited, true⟩ := by
  decide

/-! ## The preview page -/

/-- C16, as stated, fails: for an id that names no link the preview answers with
status 404, which is not a success status, and the error page. -/
theorem preview_missing_is_404 :
    getProp anaDb.links "0" = .missing ∧
    preview plainPrinter Prototype.fresh anaDb "0" = ⟨anaDb, .page 404 .notFound, false⟩ ∧
    ∀ status page, 200 ≤ status → status < 300 →
      (preview plainPrinter Prototype.fresh anaDb "0").reply ≠ .page status page := by
  refine ⟨by decide, by decide, ?_⟩
  intro status page h1 h2 h
  have h3 : PreviewReply.page 404 Page.notFound = PreviewReply.page status page := h
  injection h3 with h4 _
  omega

/-- C16, amended: when a link is stored under the id and its title, url and
(truthy) description, as the handler reads them, convert to strings, the
preview answers with status 200 and the interstitial page rendering that link,
whether or not a user record exists for its owner and whatever has been written
onto `Object.prototype`.  When no link is stored under the id, the id is not a
property name of `Object.prototype` and no truthy value has been written onto
`Object.prototype` under it, the answer is status 404 with the error page. -/
theorem preview_answers (printer : Printer) (proto : Prototype) (db : Db) (id : String) :
    (∀ link title url, getProp db.links id = .record link →
      (link.title.orInherited proto.title).interpolate printer = some title →
      (link.url.orInherited proto.url).interpolate printer = some url →
      ((link.description.orInherited proto.description).truthy = true →
        ∃ d, (link.description.orInherited proto.description).interpolate printer = some d) →
      ∃ description,
        preview printer proto db id =
          ⟨db, .page 200 (.interstitial title url description link.user id), false⟩) ∧
    (db.links.lookup id = none → id ∉ objectPrototypeKeys →
      (proto.read id).truthy = false →
      preview printer proto db id = ⟨db, .page 404 .notFound, false⟩) := by
  constructor
  · intro link title url hl ht hu hd
    unfold preview
    rw [hl]
    by_cases hdesc : (link.description.orInherited proto.description).truthy = true
    · obtain ⟨d, hd⟩ := hd hdesc
      exact ⟨some d, by simp [ht, hu, hd, hdesc]⟩
    · exact ⟨none, by simp [ht, hu, hdesc]⟩
  · intro hnone hkey hread
    unfold preview
    rw [getProp_missing_of _ _ hnone hkey]
    simp [hread]

/-- C16 as amended, in the scenario: the link of Ana is rendered with status
200. -/
theorem preview_answers_witness :
    getProp anaDb.links "1700000000000" = .record siteLink ∧
    ∃ description, preview plainPrinter Prototype.fresh anaDb "1700000000000" =
      ⟨anaDb,
        .page 200 (.interstitial "Site" "http://x.com" description "ana" "1700000000000"),
        false⟩ :=
  ⟨by decide,
    (preview_answers plainPrinter Prototype.fresh anaDb "1700000000000").1 siteLink "Site"
      "http://x.com" (by decide) (by decide) (by decide) (fun h => absurd h (by decide))⟩

/-- After `PUT /api/links/__proto__` with `{title: "T"}` the name `title` reads
truthy on every object: the preview of the id `title`, under which no link is
stored, is no longer answered with the error page. -/
theorem preview_written_name :
    anaDb.links.lookup "title" = none ∧
    preview plainPrinter Prototype.fresh anaDb "title" =
      ⟨anaDb, .page 404 .notFound, false⟩ ∧
    preview plainPrinter (Prototype.fresh.applyLinkBody ⟨.str "T", .undefined, .undefined,
      .undefined⟩) anaDb "title" = ⟨anaDb, .ofMember, false⟩ := by
  decide

/-! ## Reads -/

/-- C17: `getProfile`, `listLinksByUser` and the preview leave the database
exactly as it was and do not call `saveDatabase`, whatever has been written
onto `Object.prototype`; `getLink` on a stored link increments the link's
`views` and persists, which changes the database whenever `views` is below
2^53. -/
theorem reads_leave_store (rt : Runtime) (printer : Printer) (proto : Prototype) (db : Db) :
    (∀ username, (getProfile rt db username).db = db ∧
      (getProfile rt db username).saved = false) ∧
    (∀ username, (listLinksByUser rt db username).db = db ∧
      (listLinksByUser rt db username).saved = false) ∧
    (∀ id, (preview printer proto db id).db = db ∧
      (preview printer proto db id).saved = false) ∧
    (∀ id link, getProp db.links id = .record link →
      getProp (getLink db id).db.links id =
        .record { link with views := increment link.views } ∧
      (getLink db id).saved = true ∧
      (link.views < 2 ^ 53 → (getLink db id).db ≠ db)) := by
  refine ⟨?_, fun _ => ⟨rfl, rfl⟩, ?_, ?_⟩
  · intro username
    unfold getProfile
    cases getProp db.users (rt.toLowerCase username) <;> exact ⟨rfl, rfl⟩
  · intro id
    unfold preview
    cases getProp db.links id with
    | missing =>
      simp only []
      split_ifs <;> exact ⟨rfl, rfl⟩
    | inherited => exact ⟨rfl, rfl⟩
    | record link =>
      simp only []
      split <;> exact ⟨rfl, rfl⟩
  · intro id link hl
    rw [getLink_of_record db id link hl]
    refine ⟨getProp_setProp_self _ _ _, rfl, ?_⟩
    intro hv hdb
    have h1 : getProp (setProp db.links id { link with views := increment link.views }) id =
        getProp db.links id := by
      rw [show setProp db.links id { link with views := increment link.views } = db.links from
        congrArg Db.links hdb]
    rw [getProp_setProp_self, hl, increment_of_lt _ hv] at h1
    have h2 := congrArg (fun s => match s with | Slot.record l => l.views | _ => 0) h1
    simp at h2

/-- C17 in the scenario: the preview of the link of Ana changes nothing, a fetch
of it does. -/
theorem reads_leave_store_witness :
    (preview plainPrinter Prototype.fresh anaDb "1700000000000").db = anaDb ∧
    getProp anaDb.links "1700000000000" = .record siteLink ∧
    siteLink.views < 2 ^ 53 ∧
    (getLink anaDb "1700000000000").db ≠ anaDb :=
  ⟨((reads_leave_store asciiRuntime plainPrinter Prototype.fresh anaDb).2.2.1
      "1700000000000").1,
    by decide, by decide,
    ((reads_leave_store asciiRuntime plainPrinter Prototype.fresh anaDb).2.2.2 "1700000000000"
      siteLink (by decide)).2.2 (by decide)⟩

/-! ## The ASCII runtime is lawful -/

theorem toNat_ofNat_small (n : Nat) (h : n < 55296) : (Char.ofNat n).toNat = n := by
  unfold Char.ofNat
  have hv : n.isValidChar := Or.inl h
  simp only [hv, dite_true, Char.ofNatAux, Char.toNat]
  rfl

theorem toLower_cases (c : Char) :
    (c.toLower = c ∧ ¬(65 ≤ c.toNat ∧ c.toNat ≤ 90)) ∨
    ((65 ≤ c.toNat ∧ c.toNat ≤ 90) ∧ c.toLower.toNat = c.toNat + 32) := by
  unfold Char.toLower
  by_cases h : c.toNat ≥ 65 ∧ c.toNat ≤ 90
  · right
    refine ⟨h, ?_⟩
    simp only [h, and_self, if_true]
    exact toNat_ofNat_small _ (by omega)
  · left
    simp [h]

theorem toLower_toLower (c : Char) : c.toLower.toLower = c.toLower := by
  rcases toLower_cases c with ⟨h, _⟩ | ⟨h, h32⟩
  · rw [h, h]
  · rcases toLower_cases c.toLower with ⟨h2, _⟩ | ⟨h2, _⟩
    · exact h2
    · omega

theorem isWhitespace_iff (c : Char) :
    c.isWhitespace = true ↔ c.toNat = 32 ∨ c.toNat = 9 ∨ c.toNat = 13 ∨ c.toNat = 10 := by
  have key : ∀ d : Char, c = d ↔ c.toNat = d.toNat := by
    intro d
    constructor
    · intro h; rw [h]
    · intro h
      apply Char.ext
      apply UInt32.ext
      exact h
  simp only [Char.isWhitespace, Bool.or_eq_true, decide_eq_true_eq, key]
  simp only [or_assoc]
  rfl

theorem isWhitespace_toLower (c : Char) : c.toLower.isWhitespace = c.isWhitespace := by
  rcases toLower_cases c with ⟨h, _⟩ | ⟨h, h32⟩
  · rw [h]
  · have h1 : ¬(c.toLower.isWhitespace = true) := by
      rw [isWhitespace_iff]; omega
    have h2 : ¬(c.isWhitespace = true) := by
      rw [isWhitespace_iff]; omega
    simp only [Bool.not_eq_true] at h1 h2
    rw [h1, h2]

theorem head_prefix_not {p : Char → Bool} {m n : List Char} (hpre : n <+: m)
    (hm : ∀ hl : 0 < m.length, ¬p (m.get ⟨0, hl⟩) = true) :
    ∀ hl : 0 < n.length, ¬p (n.get ⟨0, hl⟩) = true := by
  obtain ⟨t, rfl⟩ := hpre
  intro hl
  cases n with
  | nil => simp at hl
  | cons a n => simpa using hm (by simp)

theorem trimList_idem (p : Char → Bool) (l : List Char) :
    trimList p (trimList p l) = trimList p l := by
  have hdrop : ((l.dropWhile p).rdropWhile p).dropWhile p = (l.dropWhile p).rdropWhile p := by
    rw [List.dropWhile_eq_self_iff]
    exact head_prefix_not (List.rdropWhile_prefix p _)
      (fun hl => List.dropWhile_get_zero_not p l hl)
  show ((((l.dropWhile p).rdropWhile p).dropWhile p).rdropWhile p) = (l.dropWhile p).rdropWhile p
  rw [hdrop, List.rdropWhile_idempotent]

theorem trimList_map (p : Char → Bool) (f : Char → Char) (hf : ∀ c, p (f c) = p c)
    (l : List Char) : trimList p (l.map f) = (trimList p l).map f := by
  have hpf : p ∘ f = p := funext hf
  unfold trimList
  rw [List.dropWhile_map, hpf, ← List.map_reverse, List.dropWhile_map, hpf, List.map_reverse]

theorem asciiRuntime_lawful : asciiRuntime.Lawful := by
  have hmap : ∀ l : List Char, (l.map Char.toLower).map Char.toLower = l.map Char.toLower := by
    intro l
    rw [List.map_map]
    exact List.map_congr_left fun c _ => toLower_toLower c
  have hlow : ∀ s : String, asciiRuntime.toLowerCase s = String.mk (s.data.map Char.toLower) :=
    fun _ => rfl
  have htrim : ∀ s : String,
      asciiRuntime.trim s = String.mk (trimList Char.isWhitespace s.data) := fun _ => rfl
  have hcomm : ∀ l : List Char,
      trimList Char.isWhitespace (l.map Char.toLower) =
        (trimList Char.isWhitespace l).map Char.toLower :=
    trimList_map _ _ isWhitespace_toLower
  refine ⟨?_, ?_, ?_, ?_, ?_⟩
  · intro s
    simp only [hlow, hmap]
  · intro s
    simp only [htrim, trimList_idem]
  · intro s
    simp only [hlow, htrim, hcomm, hmap]
  · intro s hs
    simp only [hlow, htrim, hcomm] at hs ⊢
    intro h
    apply hs
    have h1 : (trimList Char.isWhitespace s.data).map Char.toLower = [] :=
      congrArg String.data h
    rw [List.map_eq_nil_iff.1 h1]
  · intro s hs
    simp only [hlow, htrim, hcomm] at hs ⊢
    have h1 : trimList Char.isWhitespace s.data = s.data := congrArg String.data hs
    rw [h1]

/-! ## Key and field consistency -/

theorem mem_of_lookup {α : Type} (t : Table α) (k : String) (v : α)
    (h : t.lookup k = some v) : (k, v) ∈ t := by
  induction t with
  | nil => simp at h
  | cons p t ih =>
    obtain ⟨a, b⟩ := p
    rw [List.lookup_cons] at h
    by_cases hk : k = a
    · subst hk
      simp only [beq_self_eq_true, Option.some.injEq] at h
      subst h
      exact List.mem_cons_self _ _
    · have hne : (k == a) = false := by simpa using hk
      simp only [hne] at h
      exact List.mem_cons_of_mem _ (ih h)

theorem mem_setProp {α : Type} (t : Table α) (k : String) (v : α) (p : String × α)
    (h : p ∈ setProp t k v) : p ∈ t ∨ p = (k, v) := by
  unfold setProp at h
  cases hl : t.lookup k with
  | none =>
    simp only [hl, List.mem_append, List.mem_singleton] at h
    exact h
  | some r =>
    simp only [hl, List.mem_map] at h
    obtain ⟨q, hq, hqp⟩ := h
    by_cases hk : q.1 = k
    · right
      simpa [hk] using hqp.symm
    · left
      simp only [hk, if_false] at hqp
      exact hqp ▸ hq

theorem mem_setProp_self {α : Type} (t : Table α) (k : String) (v : α) :
    (k, v) ∈ setProp t k v := by
  have h := lookup_setProp_self t k v
  exact mem_of_lookup _ _ _ h

theorem mem_delProp {α : Type} (t : Table α) (k : String) (p : String × α)
    (h : p ∈ delProp t k) : p ∈ t :=
  (List.mem_filter.1 h).1

theorem mem_of_getProp {α : Type} (t : Table α) (k : String) (v : α)
    (h : getProp t k = .record v) : (k, v) ∈ t :=
  mem_of_lookup _ _ _ ((getProp_eq_record _ _ _).1 h)

theorem consistent_bumpTotalViews (rt : Runtime) (db : Db) (key : String) (links : Table Link)
    (h : Db.Consistent rt db) (hl : Db.Consistent rt ⟨db.users, links⟩) :
    Db.Consistent rt ⟨bumpTotalViews db.users key, links⟩ := by
  refine ⟨?_, hl.2⟩
  intro p hp
  unfold bumpTotalViews at hp
  cases hg : getProp db.users key with
  | record u =>
    simp only [hg] at hp
    rcases mem_setProp _ _ _ _ hp with hp | hp
    · exact h.1 p hp
    · subst hp
      exact h.1 (key, u) (mem_of_getProp _ _ _ hg)
  | inherited => simp only [hg] at hp; exact h.1 p hp
  | missing => simp only [hg] at hp; exact h.1 p hp

theorem consistent_login (rt : Runtime) (hrt : rt.Lawful) (clock : Clock) (db : Db)
    (username : JVal) (h : Db.Consistent rt db) :
    Db.Consistent rt (loginOrRegister rt clock db username).db := by
  cases username with
  | str s =>
    by_cases hs : s = "" ∨ rt.trim s = ""
    · simpa only [loginOrRegister, if_pos hs] using h
    · cases hg : getProp db.users (rt.trim (rt.toLowerCase s)) with
      | record r => rw [login_of_record rt clock db s r hs hg]; exact h
      | inherited => rw [login_of_inherited rt clock db s hs hg]; exact h
      | missing =>
        rw [login_of_missing rt clock db s hs hg]
        refine ⟨?_, h.2⟩
        intro p hp
        rcases mem_setProp _ _ _ _ hp with hp | hp
        · exact h.1 p hp
        · subst hp
          exact ⟨rfl, hrt.trim_lower_ne s (fun h0 => hs (Or.inr h0)),
            hrt.lower_trim_lower s, hrt.trim_trim _⟩
  | undefined => exact h
  | null => exact h
  | bool b => cases b <;> exact h
  | num n => by_cases hn : n = 0 <;> simpa [loginOrRegister, JVal.truthy, hn] using h
  | infinity b => exact h
  | composite j => exact h

theorem consistent_updateProfile (rt : Runtime) (db : Db) (username : String)
    (body : ProfileBody) (h : Db.Consistent rt db) :
    Db.Consistent rt (updateProfile rt db username body).db := by
  unfold updateProfile
  cases hg : getProp db.users (rt.toLowerCase username) with
  | missing => exact h
  | inherited => exact h
  | record user =>
    refine ⟨?_, h.2⟩
    intro p hp
    rcases mem_setProp _ _ _ _ hp with hp | hp
    · exact h.1 p hp
    · subst hp
      have hu := h.1 _ (mem_of_getProp _ _ _ hg)
      refine ⟨?_, hu.2⟩
      have : (applyProfileBody user body).username = user.username := by
        unfold applyProfileBody
        split_ifs <;> rfl
      exact this.trans hu.1

theorem consistent_createLink (rt : Runtime) (hrt : rt.Lawful) (clock : Clock) (db : Db)
    (body : CreateBody) (h : Db.Consistent rt db) :
    Db.Consistent rt (createLink rt clock db body).db := by
  unfold createLink
  split_ifs
  · exact h
  · split
    · refine ⟨h.1, ?_⟩
      intro p hp
      rcases mem_setProp _ _ _ _ hp with hp | hp
      · exact h.2 p hp
      · subst hp
        exact ⟨rfl, hrt.lower_lower _⟩
    · exact h

theorem consistent_setLink (rt : Runtime) (db : Db) (id : String) (link link1 : Link)
    (h : Db.Consistent rt db) (hg : getProp db.links id = .record link)
    (hid : link1.id = link.id) (huser : link1.user = link.user) :
    Db.Consistent rt ⟨db.users, setProp db.links id link1⟩ := by
  refine ⟨h.1, ?_⟩
  intro p hp
  rcases mem_setProp _ _ _ _ hp with hp | hp
  · exact h.2 p hp
  · subst hp
    have hl := h.2 _ (mem_of_getProp _ _ _ hg)
    exact ⟨hid.trans hl.1, by rw [huser]; exact hl.2⟩

theorem consistent_getLink (rt : Runtime) (db : Db) (id : String) (h : Db.Consistent rt db) :
    Db.Consistent rt (getLink db id).db := by
  unfold getLink
  cases hg : getProp db.links id with
  | missing => exact h
  | inherited => exact h
  | record link => exact consistent_setLink rt db id link _ h hg rfl rfl

theorem consistent_updateLink (rt : Runtime) (db : Db) (id : String) (body : LinkBody)
    (h : Db.Consistent rt db) : Db.Consistent rt (updateLink db id body).db := by
  unfold updateLink
  cases hg : getProp db.links id with
  | missing => exact h
  | inherited => exact h
  | record link =>
    refine consistent_setLink rt db id link _ h hg ?_ ?_ <;>
    unfold applyLinkBody <;> split_ifs <;> rfl

theorem consistent_deleteLink (rt : Runtime) (db : Db) (id : String)
    (h : Db.Consistent rt db) : Db.Consistent rt (deleteLink db id).db := by
  have hdel : Db.Consistent rt ⟨db.users, delProp db.links id⟩ :=
    ⟨h.1, fun p hp => h.2 p (mem_delProp _ _ _ hp)⟩
  unfold deleteLink
  cases hg : getProp db.links id with
  | missing => exact h
  | inherited => exact hdel
  | record link => exact hdel

theorem consistent_registerClick (rt : Runtime) (db : Db) (id : String)
    (h : Db.Consistent rt db) : Db.Consistent rt (registerClick db id).db := by
  unfold registerClick
  cases hg : getProp db.links id with
  | missing => exact h
  | inherited => exact consistent_bumpTotalViews rt db _ _ h h
  | record link =>
    exact consistent_bumpTotalViews rt db _ _ h
      (consistent_setLink rt db id link _ h hg rfl rfl)

theorem consistent_getProfile (rt : Runtime) (db : Db) (username : String)
    (h : Db.Consistent rt db) : Db.Consistent rt (getProfile rt db username).db := by
  unfold getProfile
  cases getProp db.users (rt.toLowerCase username) <;> exact h

/-- C19: for a lawful runtime, the empty database is consistent (every user
record is stored under its `username`, a non-empty, lowercased and trimmed key;
every link record is stored under its `id` and has a lowercased `user`), each
of the nine operations takes a consistent database to a consistent one, and so
every database reachable from the empty one is consistent. -/
theorem consistent_reachable (rt : Runtime) (hrt : rt.Lawful) :
    Db.Consistent rt Db.empty ∧
    (∀ db, Db.Consistent rt db →
      (∀ clock username, Db.Consistent rt (loginOrRegister rt clock db username).db) ∧
      (∀ username, Db.Consistent rt (getProfile rt db username).db) ∧
      (∀ username body, Db.Consistent rt (updateProfile rt db username body).db) ∧
      (∀ clock body, Db.Consistent rt (createLink rt clock db body).db) ∧
      (∀ username, Db.Consistent rt (listLinksByUser rt db username).db) ∧
      (∀ id, Db.Consistent rt (getLink db id).db) ∧
      (∀ id body, Db.Consistent rt (updateLink db id body).db) ∧
      (∀ id, Db.Consistent rt (deleteLink db id).db) ∧
      (∀ id, Db.Consistent rt (registerClick db id).db)) ∧
    (∀ db, Reachable rt db → Db.Consistent rt db) := by
  have hempty : Db.Consistent rt Db.empty :=
    ⟨fun p hp => absurd hp (List.not_mem_nil p), fun p hp => absurd hp (List.not_mem_nil p)⟩
  refine ⟨hempty, ?_, ?_⟩
  · intro db h
    exact ⟨fun clock username => consistent_login rt hrt clock db username h,
      fun username => consistent_getProfile rt db username h,
      fun username body => consistent_updateProfile rt db username body h,
      fun clock body => consistent_createLink rt hrt clock db body h,
      fun _ => h,
      fun id => consistent_getLink rt db id h,
      fun id body => consistent_updateLink rt db id body h,
      fun id => consistent_deleteLink rt db id h,
      fun id => consistent_registerClick rt db id h⟩
  · intro db hreach
    induction hreach with
    | empty => exact hempty
    | loginOrRegister clock username _ ih => exact consistent_login rt hrt clock _ username ih
    | getProfile username _ ih => exact consistent_getProfile rt _ username ih
    | updateProfile username body _ ih => exact consistent_updateProfile rt _ username body ih
    | createLink clock body _ ih => exact consistent_createLink rt hrt clock _ body ih
    | listLinksByUser username _ ih => exact ih
    | getLink id _ ih => exact consistent_getLink rt _ id ih
    | updateLink id body _ ih => exact consistent_updateLink rt _ id body ih
    | deleteLink id _ ih => exact consistent_deleteLink rt _ id ih
    | registerClick id _ ih => exact consistent_registerClick rt _ id ih

/-- C19 for the ASCII runtime: the database after the login of `Ana` and the
creation of her link is reachable, hence consistent. -/
theorem consistent_reachable_witness :
    asciiRuntime.Lawful ∧
    Db.Consistent asciiRuntime
      (createLink asciiRuntime demoClock
        (loginOrRegister asciiRuntime demoClock Db.empty (.str "Ana")).db siteBody).db :=
  ⟨asciiRuntime_lawful,
    (consistent_reachable asciiRuntime asciiRuntime_lawful).2.2 _
      (Reachable.createLink demoClock siteBody
        (Reachable.loginOrRegister demoClock (.str "Ana") Reachable.empty))⟩

/-! ## A link created after logging in -/

theorem getProp_inherited_mem {α : Type} (t : Table α) (k : String)
    (h : getProp t k = .inherited) : k ∈ objectPrototypeKeys := by
  unfold getProp at h
  cases hl : t.lookup k with
  | some r => simp [hl] at h
  | none =>
    by_contra hk
    simp [hl, hk] at h

theorem mem_values_setProp {α : Type} (t : Table α) (k : String) (v : α) :
    v ∈ values (setProp t k v) :=
  List.mem_map.2 ⟨(k, v), mem_setProp_self t k v, rfl⟩

/-- For a lawful runtime and a consistent database: after the login of a
non-empty username `u` without surrounding whitespace whose lowercased form is
not a property name of `Object.prototype`, a user record is stored under the
lowercased `u`; an accepted `createLink` for `u` with `isPublic` not `false`
then creates a link whose `user` is that key, and the link is among the links
of `getProfile u` and of `listLinksByUser u`. -/
theorem created_link_listed (rt : Runtime) (hrt : rt.Lawful) (c1 c2 : Clock) (db : Db)
    (hdb : Db.Consistent rt db) (u : String) (body : CreateBody)
    (hu : u ≠ "") (htrim : rt.trim u = u) (hk : rt.toLowerCase u ∉ objectPrototypeKeys)
    (hb : body.username = .str u) (ht : body.title.truthy = true)
    (hl : body.url.truthy = true) (hp : body.isPublic ≠ .bool false) :
    ∃ link usr,
      (createLink rt c2 (loginOrRegister rt c1 db (.str u)).db body).reply = .ok link ∧
      getProp (loginOrRegister rt c1 db (.str u)).db.users (rt.toLowerCase u) = .record usr ∧
      link.user = rt.toLowerCase u ∧
      (∃ p, (getProfile rt
          (createLink rt c2 (loginOrRegister rt c1 db (.str u)).db body).db u).reply = .ok p ∧
        link ∈ p.links) ∧
      (∃ ls, (listLinksByUser rt
          (createLink rt c2 (loginOrRegister rt c1 db (.str u)).db body).db u).reply = .ok ls ∧
        link ∈ ls) := by
  have hkey : rt.trim (rt.toLowerCase u) = rt.toLowerCase u := hrt.trim_lower_of_trim u htrim
  have hs : ¬(u = "" ∨ rt.trim u = "") := by
    rw [htrim]; simp [hu]
  have hut : body.username.truthy = true := by
    rw [hb]; simp [JVal.truthy, hu]
  -- the user record that the login created or found
  have hlogin : ∃ usr, getProp (loginOrRegister rt c1 db (.str u)).db.users
      (rt.toLowerCase u) = .record usr ∧ usr.username = rt.toLowerCase u := by
    cases hg : getProp db.users (rt.trim (rt.toLowerCase u)) with
    | record r =>
      rw [login_of_record rt c1 db u r hs hg]
      rw [hkey] at hg
      exact ⟨r, hg, (hdb.1 _ (mem_of_getProp _ _ _ hg)).1⟩
    | inherited =>
      rw [hkey] at hg
      exact absurd (getProp_inherited_mem _ _ hg) hk
    | missing =>
      rw [login_of_missing rt c1 db u hs hg, hkey]
      exact ⟨_, getProp_setProp_self _ _ _, rfl⟩
  obtain ⟨usr, husr, hname⟩ := hlogin
  rw [createLink_of_accepted rt c2 _ body u hb hut ht hl]
  refine ⟨newLink rt c2 u body, usr, rfl, husr, rfl, ?_, ?_⟩
  · have hprof : ∀ d : Db, getProp d.users (rt.toLowerCase u) = .record usr →
        (getProfile rt d u).reply = .ok ⟨usr.publicFields,
          (values d.links).filter
            (fun l => decide (l.user = usr.username) && l.isPublic.truthy),
          ((values d.links).filter
            (fun l => decide (l.user = usr.username) && l.isPublic.truthy)).length⟩ := by
      intro d hd
      unfold getProfile
      rw [hd]
    refine ⟨_, hprof _ husr, ?_⟩
    · simp only [List.mem_filter, Bool.and_eq_true, decide_eq_true_eq]
      refine ⟨mem_values_setProp _ _ _, ?_, ?_⟩
      · rw [hname]; rfl
      · simp [newLink, hp, JVal.truthy]
  · refine ⟨_, rfl, ?_⟩
    simp only [List.mem_filter, decide_eq_true_eq]
    exact ⟨mem_values_setProp _ _ _, rfl⟩

/-- C20 at the username `constructor`: the login creates no user record; the
link created for `constructor` is returned by `listLinksByUser`, but
`getProfile` returns no link at all. -/
theorem profile_misses_constructor_link :
    asciiRuntime.trim "constructor" = "constructor" ∧
    (loginOrRegister asciiRuntime demoClock Db.empty (.str "constructor")).db = Db.empty ∧
    createLink asciiRuntime demoClock Db.empty constructorBody =
      ⟨constructorDb, .ok constructorLink, true⟩ ∧
    listLinksByUser asciiRuntime constructorDb "constructor" =
      ⟨constructorDb, .ok [constructorLink], false⟩ ∧
    getProfile asciiRuntime constructorDb "constructor" =
      ⟨constructorDb,
        .ok ⟨⟨.undefined, .undefined, .undefined, .undefined, .undefined⟩, [], 0⟩, false⟩ := by
  decide

/-! ## Saving and reloading -/

theorem get_jsonMember_ne (name key : String) (v : JVal) (rest : JsonObject)
    (h : key ≠ name) :
    JsonObject.get (jsonMember name v ++ rest) key = JsonObject.get rest key := by
  have hne : (key == name) = false := by simpa using h
  unfold JsonObject.get jsonMember
  cases v <;> simp [List.lookup_cons, hne]

theorem writtenChars_of_no_infinity (l : List Char) :
    ∀ inString escaped, mentionsInfinity inString escaped l = false →
      writtenChars inString escaped 0 l = l := by
  induction l with
  | nil => intro s e _; cases s <;> cases e <;> rfl
  | cons c rest ih =>
    intro s e h
    cases s with
    | true =>
      cases e with
      | true =>
        simp only [mentionsInfinity] at h
        simp only [writtenChars, ih _ _ h]
      | false =>
        simp only [mentionsInfinity] at h
        simp only [writtenChars, ih _ _ h]
    | false =>
      simp only [mentionsInfinity, Bool.or_eq_false_iff] at h
      obtain ⟨h1, h2⟩ := h
      have h3 : "-Infinity".data.isPrefixOf (c :: rest) = false := by
        by_contra hp
        rw [Bool.not_eq_false] at hp
        have hd : "-Infinity".data = Char.ofNat 45 :: "Infinity".data := by decide
        rw [hd, List.isPrefixOf_cons₂, Bool.and_eq_true] at hp
        obtain ⟨hc, hr⟩ := hp
        have hc0 : Char.ofNat 45 = c := by simpa using hc
        have hc1 : c = Char.ofNat 45 := hc0.symm
        subst hc1
        cases rest with
        | nil => exact absurd hr (by decide)
        | cons d rest1 =>
          have hq : (Char.ofNat 45 == Char.ofNat 34) = false := by decide
          rw [hq] at h2
          simp only [mentionsInfinity, Bool.or_eq_false_iff] at h2
          rw [h2.1] at hr
          exact Bool.noConfusion hr
      simp only [writtenChars, h3, h1, Bool.false_eq_true, if_false, ih _ _ h2]

theorem reloaded_of_finite (v : JVal) (hv : v.finite = true) : v.reloaded = v := by
  cases v with
  | infinity b => simp [JVal.finite] at hv
  | composite j =>
    simp only [JVal.finite, Bool.not_eq_true'] at hv
    simp only [JVal.reloaded, writtenChars_of_no_infinity _ _ _ hv]
  | undefined => rfl
  | null => rfl
  | bool b => rfl
  | num n => rfl
  | str s => rfl

theorem get_jsonMember_self (name : String) (v : JVal) (rest : JsonObject)
    (hv : v.finite = true) (hrest : rest.lookup name = none) :
    JsonObject.get (jsonMember name v ++ rest) name = v := by
  have hr := reloaded_of_finite v hv
  unfold JsonObject.get jsonMember
  cases v with
  | undefined => simp only [List.nil_append, hrest]
  | infinity b => simp [JVal.finite] at hv
  | null => simp [List.lookup_cons, hr]
  | bool b => simp [List.lookup_cons, hr]
  | num n => simp [List.lookup_cons, hr]
  | str s => simp [List.lookup_cons, hr]
  | composite j => simp [List.lookup_cons, hr]

theorem lookup_jsonMember_ne (name key : String) (v : JVal) (rest : JsonObject)
    (h : key ≠ name) :
    (jsonMember name v ++ rest).lookup key = rest.lookup key := by
  have hne : (key == name) = false := by simpa using h
  unfold jsonMember
  cases v <;> simp [List.lookup_cons, hne]

theorem lookup_jsonObject_none (fields : List (String × JVal)) (key : String)
    (h : key ∉ fields.map Prod.fst) : (jsonObject fields).lookup key = none := by
  induction fields with
  | nil => rfl
  | cons p rest ih =>
    simp only [List.map_cons, List.mem_cons, not_or] at h
    rw [jsonObject, lookup_jsonMember_ne _ _ _ _ h.1]
    exact ih h.2

theorem get_jsonObject (fields : List (String × JVal)) (hnd : (fields.map Prod.fst).Nodup)
    (name : String) (v : JVal) (hm : (name, v) ∈ fields) (hv : v.finite = true) :
    JsonObject.get (jsonObject fields) name = v := by
  induction fields with
  | nil => simp at hm
  | cons p rest ih =>
    simp only [List.map_cons, List.nodup_cons] at hnd
    rw [jsonObject]
    rcases List.mem_cons.1 hm with hp | hp
    · subst hp
      exact get_jsonMember_self _ _ _ hv (lookup_jsonObject_none _ _ hnd.1)
    · have hne : name ≠ p.1 := by
        intro h
        apply hnd.1
        rw [← h]
        exact List.mem_map.2 ⟨(name, v), hp, rfl⟩
      rw [get_jsonMember_ne _ _ _ _ hne]
      exact ih hnd.2 hp

theorem user_ofJson_toJson (u : User) (h : u.finite = true) : User.ofJson u.toJson = u := by
  simp only [User.finite, Bool.and_eq_true] at h
  obtain ⟨⟨h1, h2⟩, h3⟩ := h
  have hnd : (u.properties.map Prod.fst).Nodup := by
    show ["username", "fullName", "bio", "avatar", "totalViews", "created"].Nodup
    decide
  have hget : ∀ name v, (name, v) ∈ u.properties → v.finite = true →
      JsonObject.get u.toJson name = v := get_jsonObject u.properties hnd
  unfold User.ofJson
  rw [hget "username" (.str u.username) (by simp [User.properties]) rfl,
    hget "fullName" u.fullName (by simp [User.properties]) h1,
    hget "bio" u.bio (by simp [User.properties]) h2,
    hget "avatar" u.avatar (by simp [User.properties]) h3,
    hget "totalViews" (.num u.totalViews) (by simp [User.properties]) rfl,
    hget "created" (.str u.created) (by simp [User.properties]) rfl]
  simp [JVal.asString, JVal.asNat]

theorem link_ofJson_toJson (l : Link) (h : l.finite = true) : Link.ofJson l.toJson = l := by
  simp only [Link.finite, Bool.and_eq_true] at h
  obtain ⟨⟨⟨h1, h2⟩, h3⟩, h4⟩ := h
  have hnd : (l.properties.map Prod.fst).Nodup := by
    show ["id", "user", "title", "url", "description", "isPublic", "created", "views",
      "clicks"].Nodup
    decide
  have hget : ∀ name v, (name, v) ∈ l.properties → v.finite = true →
      JsonObject.get l.toJson name = v := get_jsonObject l.properties hnd
  unfold Link.ofJson
  rw [hget "id" (.str l.id) (by simp [Link.properties]) rfl,
    hget "user" (.str l.user) (by simp [Link.properties]) rfl,
    hget "title" l.title (by simp [Link.properties]) h1,
    hget "url" l.url (by simp [Link.properties]) h2,
    hget "description" l.description (by simp [Link.properties]) h3,
    hget "isPublic" l.isPublic (by simp [Link.properties]) h4,
    hget "created" (.str l.created) (by simp [Link.properties]) rfl,
    hget "views" (.num l.views) (by simp [Link.properties]) rfl,
    hget "clicks" (.num l.clicks) (by simp [Link.properties]) rfl]
  simp [JVal.asString, JVal.asNat]

/-- C18, as stated, fails: the database after the login of `Ana` and a
`createLink` whose title is the JSON number `1e999` is reachable, and reloading
what `saveDatabase` wrote gives a link whose title is `null`, not that number. -/
theorem reload_loses_huge_number :
    (createLink asciiRuntime demoClock
      (loginOrRegister asciiRuntime demoClock Db.empty (.str "Ana")).db hugeTitleBody).db =
        hugeTitleDb ∧
    getProp hugeTitleDb.links "1700000000000" = .record hugeTitleLink ∧
    hugeTitleLink.title = .infinity false ∧
    getProp (startup (some (saveDatabase hugeTitleDb))).links "1700000000000" =
      .record { hugeTitleLink with title := .null } ∧
    startup (some (saveDatabase hugeTitleDb)) ≠ hugeTitleDb := by
  decide

/-- A non-finite number inside an array is lost as well: the description
`[1e999, "Infinity"]` is reloaded as `[null, "Infinity"]`, and such a record is
not `finite`. -/
theorem reload_loses_nested_number :
    hugeListLink.finite = false ∧
    (startup (some (saveDatabase ⟨[], [("1700000000000", hugeListLink)]⟩))).links =
      [("1700000000000",
        { hugeListLink with description := .composite "[null,\"Infinity\"]" })] := by
  decide

/-- C18, amended: for every database in which no stored value is or contains a
non-finite number, loading the document that `saveDatabase` wrote into a fresh
empty store gives back the same users and links, with the same keys and field
values. -/
theorem reload_saved (db : Db) (h : db.finite = true) :
    startup (some (saveDatabase db)) = db := by
  simp only [Db.finite, Bool.and_eq_true, List.all_eq_true] at h
  obtain ⟨hu, hl⟩ := h
  obtain ⟨users, links⟩ := db
  simp only [startup, saveDatabase, List.map_map]
  congr 1
  · conv_rhs => rw [← List.map_id users]
    apply List.map_congr_left
    intro p hp
    simp only [Function.comp, id]
    rw [user_ofJson_toJson _ (hu p hp)]
  · conv_rhs => rw [← List.map_id links]
    apply List.map_congr_left
    intro p hp
    simp only [Function.comp, id]
    rw [link_ofJson_toJson _ (hl p hp)]

/-- C18 as amended, in the scenario after two fetches and one click. -/
theorem reload_saved_witness :
    usedDb.finite = true ∧ startup (some (saveDatabase usedDb)) = usedDb :=
  ⟨by decide, reload_saved usedDb (by decide)⟩

end LinkVault
